import Mathlib

/-!
Verification development for the web-server repository.

This file gives a shallow embedding of the parts of the code that the
checked properties talk about, and proves or refutes each property.

Conventions of the embedding:
- machine bytes and bit masks are `Nat` with explicit bitwise operators;
  `%`-truncation is written where the C++ width matters;
- pointer-valued queues (`std::vector<Buffer*>`) become `List Buffer`;
  releasing a buffer to the pool is recorded in an explicit result list;
- kernel calls (`read`, `write`) are passed in as explicit outcome
  parameters, since the code branches only on their results;
- callback invocations and state transitions are recorded as explicit
  effect traces, so that statements about "no callback runs" or "the
  connection replies once" are about the trace.
-/

namespace websrv

/-- PollableID is a 32-bit id in the source; values are small so `Nat` is used. -/
abbrev PollableID := Nat

/-- Poll readiness bits, with the Linux `poll.h` values used by the source. -/
def POLLIN : Nat := 0x001

/-- POLLOUT readiness bit. -/
def POLLOUT : Nat := 0x004

/-- POLLERR readiness bit. -/
def POLLERR : Nat := 0x008

/-- POLLHUP readiness bit. -/
def POLLHUP : Nat := 0x010

/-- POLLNVAL readiness bit. -/
def POLLNVAL : Nat := 0x020

/-- Buffer from include/websrv/buffer.hpp: a growable byte sequence
(`std::vector<uint8_t> data_`). -/
structure Buffer where
  data : List Nat
  deriving Repr, DecidableEq

/-- Buffer::size. -/
def Buffer.size (b : Buffer) : Nat := b.data.length

/-- Buffer::getAt (include/websrv/buffer.hpp lines 34-39): bounds-checked read
that returns the stored byte for `pos < size` and 0 otherwise. -/
def Buffer.getAt (b : Buffer) (pos : Nat) : Nat :=
  if pos < b.data.length then b.data.getD pos 0 else 0

/-- Buffer::append. -/
def Buffer.append (b : Buffer) (bytes : List Nat) : Buffer :=
  { data := b.data ++ bytes }

/-- Socket from include/websrv/socket.hpp: the fields the managed I/O paths
touch. The file descriptor is an `Int` because the code tests `fd < 0`. -/
structure Socket where
  file_descriptor : Int := -1
  pending_read_buffers : List Buffer := []
  pending_write_buffers : List Buffer := []
  deriving Repr, DecidableEq

/-- Outcome of the `::read` call in Socket::handleRead, as the code branches
on it: positive return with the bytes read, zero (EOF), EAGAIN/EWOULDBLOCK,
or any other errno. -/
inductive ReadOutcome where
  | bytes (chunk : List Nat)
  | eof
  | eagain
  | err
  deriving Repr, DecidableEq

/-- Helper for Socket::handleRead: append the chunk to the last read buffer
(the code reads into `pending_read_buffers.back()`). -/
def appendToLast (l : List Buffer) (chunk : List Nat) : List Buffer :=
  match l with
  | [] => []
  | [b] => [b.append chunk]
  | b :: rest => b :: appendToLast rest chunk

/-- Socket::handleRead (src/src/websrv/socket.cpp lines 97-125). A new tail
buffer is obtained when the queue is empty or the tail reached 4096 bytes;
this happens before the `::read`, in every outcome. The function returns
`true` only when bytes were read; EOF, EAGAIN and errors all return `false`.
The read outcome replaces the ambient `::read` call. -/
def Socket.handleRead (s : Socket) (o : ReadOutcome) : Socket × Bool :=
  if s.file_descriptor < 0 then (s, false)
  else
    let needNew : Bool :=
      match s.pending_read_buffers.getLast? with
      | none => true
      | some b => b.size ≥ 4096
    let prb :=
      if needNew then s.pending_read_buffers ++ [{ data := [] }]
      else s.pending_read_buffers
    match o with
    | .bytes chunk => ({ s with pending_read_buffers := appendToLast prb chunk }, true)
    | .eof => ({ s with pending_read_buffers := prb }, false)
    | .eagain => ({ s with pending_read_buffers := prb }, false)
    | .err => ({ s with pending_read_buffers := prb }, false)

/-- Socket::handleWrite (src/src/websrv/socket.cpp lines 127-157). `written`
is the return of `::write` (negative on EAGAIN or error). The code pops and
releases the whole head buffer whenever `written > 0`, with the source
comment "For now, assume all written (simplification)"; the number of bytes
actually accepted is never compared with the buffer size. The middle
component of the result lists the buffers released back to the pool. -/
def Socket.handleWrite (s : Socket) (written : Int) : Socket × List Buffer × Bool :=
  if s.file_descriptor < 0 then (s, [], false)
  else
    match s.pending_write_buffers with
    | [] => (s, [], false)
    | buffer :: rest =>
      if buffer.size = 0 then
        ({ s with pending_write_buffers := rest }, [buffer], decide (rest ≠ []))
      else if written > 0 then
        ({ s with pending_write_buffers := rest }, [buffer], true)
      else
        (s, [], false)

/-- Socket::handleError (src/src/websrv/socket.cpp lines 159-164): true when
any of the error/hangup/invalid bits is set. -/
def Socket.handleError (revents : Nat) : Bool :=
  decide (revents &&& (POLLERR ||| POLLHUP ||| POLLNVAL) ≠ 0)

/-- PollerEvent from include/websrv/poller.hpp. -/
structure PollerEvent where
  id : PollableID
  revents : Nat
  deriving Repr, DecidableEq

/-- SocketResult::Type from include/websrv/socket_manager.hpp. -/
inductive SocketResultType where
  | DATA
  | CLOSED
  | ERROR
  deriving Repr, DecidableEq

/-- Poller state relevant to POLLOUT interest: the per-pollable requested
event mask (`pollEntries[id].events`, `none` when the id is not registered)
and the `pollout_pending` map (ids absent from the C++ map behave as
`false`). -/
structure PollerState where
  entries : PollableID → Option Nat
  pending : PollableID → Bool

/-- Poller::enablePollout (src/src/websrv/poller.cpp lines 43-45): records the
request in `pollout_pending`; the event mask itself is updated at the start
of the next tick by updatePollEvents. -/
def PollerState.enablePollout (st : PollerState) (id : PollableID) : PollerState :=
  { st with pending := fun j => if j = id then true else st.pending j }

/-- Modelled from the spec: Poller::disablePollout is declared in
include/websrv/poller.hpp and called by SocketManager::process, but no
implementation exists under src (the poller.cpp present implements an older
callback-based API). Per the spec, the readiness set requests POLLOUT only
for sockets whose enable request is outstanding, so disabling removes the
outstanding request and clears the POLLOUT bit from the 16-bit requested
event mask. -/
def PollerState.disablePollout (st : PollerState) (id : PollableID) : PollerState :=
  { entries := fun j => if j = id then (st.entries j).map (fun e => e &&& 0xFFFB) else st.entries j,
    pending := fun j => if j = id then false else st.pending j }

/-- Poller::updatePollEvents (src/src/websrv/poller.cpp lines 69-81): for each
id whose `pollout_pending` flag is set and which has a poll entry, OR POLLOUT
into the requested events and clear the flag. It runs at the start of each
tick, before the fd set is rebuilt and handed to `poll(2)`. -/
def PollerState.updatePollEvents (st : PollerState) : PollerState :=
  { entries := fun j =>
      if st.pending j ∧ (st.entries j).isSome then (st.entries j).map (fun e => e ||| POLLOUT)
      else st.entries j,
    pending := fun j =>
      if st.pending j ∧ (st.entries j).isSome then false else st.pending j }

/-- Kernel-call outcomes for one tick, indexed by pollable id (each id occurs
in at most one event per tick). -/
structure SyscallOracle where
  readResult : PollableID → ReadOutcome
  writeResult : PollableID → Int

/-- Association-list update for the socket map (`sockets_`), keyed like the
`std::unordered_map<PollableID, Socket*>`. -/
def updateSock (l : List (PollableID × Socket)) (id : PollableID) (s : Socket) :
    List (PollableID × Socket) :=
  l.map fun p => if p.1 = id then (id, s) else p

/-- Read half of the per-event body of SocketManager::process
(src/src/websrv/socket_manager.cpp lines 35-42): on POLLIN run handleRead
and emit DATA when it returns true and CLOSED when it returns false. -/
def processRead (io : SyscallOracle)
    (acc : List (PollableID × Socket) × List (SocketResultType × PollableID))
    (ev : PollerEvent) (socket : Socket) :
    List (PollableID × Socket) × List (SocketResultType × PollableID) :=
  if ev.revents &&& POLLIN ≠ 0 then
    let rr := socket.handleRead (io.readResult ev.id)
    (updateSock acc.1 ev.id rr.1,
     acc.2 ++ [(if rr.2 then SocketResultType.DATA else SocketResultType.CLOSED, ev.id)])
  else acc

/-- Write half of the per-event body of SocketManager::process
(src/src/websrv/socket_manager.cpp lines 45-47): on POLLOUT run handleWrite
on the current state of the socket (the C++ mutates the pointed-to Socket in
place, so the write sees the read-phase updates). -/
def processWrite (io : SyscallOracle)
    (acc : List (PollableID × Socket) × List (SocketResultType × PollableID))
    (ev : PollerEvent) :
    List (PollableID × Socket) × List (SocketResultType × PollableID) :=
  if ev.revents &&& POLLOUT ≠ 0 then
    match acc.1.lookup ev.id with
    | none => acc
    | some s2 => (updateSock acc.1 ev.id (s2.handleWrite (io.writeResult ev.id)).1, acc.2)
  else acc

/-- Per-event body of SocketManager::process (src/src/websrv/socket_manager.cpp
lines 21-48): skip unknown ids; on an error bit emit ERROR and stop; else
the read phase followed by the write phase. -/
def processOneEvent (io : SyscallOracle)
    (acc : List (PollableID × Socket) × List (SocketResultType × PollableID))
    (ev : PollerEvent) : List (PollableID × Socket) × List (SocketResultType × PollableID) :=
  match acc.1.lookup ev.id with
  | none => acc
  | some socket =>
    if Socket.handleError ev.revents then
      (acc.1, acc.2 ++ [(SocketResultType.ERROR, ev.id)])
    else
      processWrite io (processRead io acc ev socket) ev

/-- Event-processing phase of SocketManager::process. -/
def processEvents (events : List PollerEvent) (io : SyscallOracle)
    (socks : List (PollableID × Socket)) :
    List (PollableID × Socket) × List (SocketResultType × PollableID) :=
  events.foldl (processOneEvent io) (socks, [])

/-- Reconciliation loop at the end of SocketManager::process
(src/src/websrv/socket_manager.cpp lines 53-64): for every registered socket,
enable POLLOUT when it has pending writes and disable it otherwise. The
source line reads `socket->write_buffer.size() > 0`; `write_buffer` is a
field of the pre-refactor Socket, and the only pending-write store of the
Socket in this layer is `pending_write_buffers`, so the condition is its
`.size() > 0`, i.e. a non-empty queue (as the adjacent comments say: "Socket
has pending writes - enable POLLOUT"). -/
def reconcilePollout (socks : List (PollableID × Socket)) (st : PollerState) : PollerState :=
  socks.foldl
    (fun st p =>
      if p.2.pending_write_buffers.length > 0 then st.enablePollout p.1
      else st.disablePollout p.1)
    st

/-- SocketManager::process (src/src/websrv/socket_manager.cpp lines 18-67):
the event loop followed by the POLLOUT reconciliation pass. Returns the
updated socket map, the updated poller state, and the emitted results. -/
def SocketManager.process (events : List PollerEvent) (io : SyscallOracle)
    (socks : List (PollableID × Socket)) (st : PollerState) :
    List (PollableID × Socket) × PollerState × List (SocketResultType × PollableID) :=
  let pr := processEvents events io socks
  (pr.1, reconcilePollout pr.1 st, pr.2)

/-- TimerID from the poller. -/
abbrev TimerID := Nat

/-- TimerEntry as constructed by the timer code in src/src/websrv/poller.cpp
(`TimerEntry{id, expiry, ms, callback, is_interval, active}`). The callback
is not data; its invocation is recorded in the effect trace. Note the
include/websrv/poller.hpp declaration of TimerEntry instead has fields
`{id, expiry, interval, repeat, expired}` with no callback; the .cpp does
not match its own header. -/
structure TimerEntryCB where
  expiry_time : Nat
  interval_ms : Nat
  is_interval : Bool
  active : Bool
  deriving Repr, DecidableEq

/-- Observable effects of a timer-processing step. -/
inductive TimerEffect where
  | callbackInvoked (id : TimerID)
  deriving Repr, DecidableEq

/-- std::map::erase on the timers map. -/
def eraseTimer (ts : List (TimerID × TimerEntryCB)) (id : TimerID) :
    List (TimerID × TimerEntryCB) :=
  ts.filter (fun p => p.1 != id)

/-- In-place update of one timer entry. -/
def setTimer (ts : List (TimerID × TimerEntryCB)) (id : TimerID) (t : TimerEntryCB) :
    List (TimerID × TimerEntryCB) :=
  ts.map (fun p => if p.1 = id then (id, t) else p)

/-- Poller::processExpiredTimers (src/src/websrv/poller.cpp lines 301-333):
collect the ids of active timers whose expiry has passed, then for each one
execute its callback, re-arm it to `now + interval` if it is an interval
timer, and erase it otherwise. No expired flag exists in this
implementation. -/
def processExpiredTimers (now : Nat) (timers : List (TimerID × TimerEntryCB)) :
    List (TimerID × TimerEntryCB) × List TimerEffect :=
  let expired := (timers.filter (fun p => p.2.active && decide (p.2.expiry_time ≤ now))).map Prod.fst
  expired.foldl
    (fun acc id =>
      match acc.1.lookup id with
      | none => acc
      | some t =>
        let effs := acc.2 ++ [TimerEffect.callbackInvoked id]
        if t.is_interval then
          (setTimer acc.1 id { t with expiry_time := now + t.interval_ms }, effs)
        else
          (eraseTimer acc.1 id, effs))
    (timers, [])

end websrv

/-- WebSocketConnectionStatus from websocket_server.hpp. -/
inductive WebSocketConnectionStatus where
  | CONNECTING
  | OPEN
  | CLOSING
  | CLOSED
  deriving Repr, DecidableEq

/-- WebSocketFrame from websocket_server.hpp. The opcode is kept as the raw
4-bit value (`data[0] & 0x0F`), matching the `static_cast` in the source;
TEXT is 0x1, BINARY 0x2, CLOSE 0x8, PING 0x9, PONG 0xA, CONTINUATION 0x0. -/
structure WebSocketFrame where
  fin : Bool := true
  rsv1 : Bool := false
  rsv2 : Bool := false
  rsv3 : Bool := false
  opcode : Nat := 0x1
  masked : Bool := false
  payload_length : Nat := 0
  masking_key : Nat := 0
  payload : List Nat := []
  deriving Repr, DecidableEq

/-- Extended-payload-length step of the shared frame parser: the 7-bit
length is final below 126; 126 reads a 16-bit big-endian length; 127 reads a
64-bit big-endian length. Returns the length and the next offset, or `none`
when too few bytes are available. -/
def parseExtLen (data : List Nat) (payload_len : Nat) : Option (Nat × Nat) :=
  if payload_len = 126 then
    if data.length < 2 + 2 then none
    else some (((data.getD 2 0) <<< 8) ||| data.getD 3 0, 4)
  else if payload_len = 127 then
    if data.length < 2 + 8 then none
    else some ((List.range 8).foldl (fun acc i => (acc <<< 8) ||| data.getD (2 + i) 0) 0, 10)
  else some (payload_len, 2)

/-- Mask-key step of the shared frame parser: read the 32-bit big-endian
mask key when the MASK bit is set. -/
def parseMaskKey (data : List Nat) (masked : Bool) (off1 : Nat) : Option (Nat × Nat) :=
  if masked then
    if data.length < off1 + 4 then none
    else some (((data.getD off1 0) <<< 24) ||| ((data.getD (off1 + 1) 0) <<< 16) |||
               ((data.getD (off1 + 2) 0) <<< 8) ||| data.getD (off1 + 3) 0, off1 + 4)
  else some (0, off1)

/-- Mask byte for payload index `i`, as written identically in the builder
and parser loops: `(masking_key >> ((3 - (i % 4)) * 8)) & 0xFF`. -/
def maskByte (mkey i : Nat) : Nat :=
  (mkey >>> ((3 - (i % 4)) * 8)) &&& 0xFF

/-- Payload step of the shared frame parser: read `plen` bytes from `off2`,
XOR-ing each with the mask byte for its index when the MASK bit is set. -/
def parsePayload (data : List Nat) (masked : Bool) (mkey off2 plen : Nat) :
    Option (List Nat) :=
  if data.length < off2 + plen then none
  else
    some ((List.range plen).map fun i =>
      let b := data.getD (off2 + i) 0
      if masked then b ^^^ maskByte mkey i else b)

/-- Frame-header and payload parsing shared between
WebSocketConnection::parseFrame (websocket_server.cpp lines 369-431) and
WebSocketClient::parseFrame (websocket_client.cpp lines 232-317), whose
parsing sections are textually identical. Split here into its three
sequential steps; `none` stands for the early returns ("need more data"). -/
def parseFrameData (data : List Nat) : Option WebSocketFrame :=
  if data.length < 2 then none
  else
    let b0 := data.getD 0 0
    let b1 := data.getD 1 0
    let fin := b0 &&& 0x80 != 0
    let rsv1 := b0 &&& 0x40 != 0
    let rsv2 := b0 &&& 0x20 != 0
    let rsv3 := b0 &&& 0x10 != 0
    let opcode := b0 &&& 0x0F
    let masked := b1 &&& 0x80 != 0
    let payload_len := b1 &&& 0x7F
    match parseExtLen data payload_len with
    | none => none
    | some (plen, off1) =>
      match parseMaskKey data masked off1 with
      | none => none
      | some (mkey, off2) =>
        match parsePayload data masked mkey off2 plen with
        | none => none
        | some payload =>
          some { fin := fin, rsv1 := rsv1, rsv2 := rsv2, rsv3 := rsv3, opcode := opcode,
                 masked := masked, payload_length := plen, masking_key := mkey,
                 payload := payload }

/-- WebSocketConnection::buildFrame (websocket_server.cpp lines 497-532):
FIN set, MASK clear (server-to-client frames are not masked), length
encoding by the 126/65536 thresholds, then the raw payload. -/
def buildFrameServer (data : List Nat) (opcode : Nat) : List Nat :=
  let n := data.length
  let lenPart : List Nat :=
    if n < 126 then [0x00 ||| n]
    else if n < 65536 then [0x00 ||| 126, (n >>> 8) &&& 0xFF, n &&& 0xFF]
    else (0x00 ||| 127) :: (List.range 8).map (fun i => (n >>> ((7 - i) * 8)) &&& 0xFF)
  ((0x80 ||| opcode) :: lenPart) ++ data

/-- Mask-key accumulation loop of WebSocketClient::buildFrame: starting from
0, each of the four generated key bytes is shifted in
(`masking_key = (masking_key << 8) | key_byte`). -/
def clientMaskKey (k0 k1 k2 k3 : Nat) : Nat :=
  (((((0 <<< 8) ||| k0) <<< 8 ||| k1) <<< 8 ||| k2) <<< 8) ||| k3

/-- WebSocketClient::buildFrame (websocket_client.cpp lines 379-427): FIN
set, MASK set, same length thresholds, then the four mask-key bytes and the
masked payload. The four key bytes produced by the random generator are
passed in as `k0..k3` (each a byte); `clientMaskKey` accumulates them
exactly as the generation loop does. -/
def buildFrameClient (data : List Nat) (opcode : Nat) (k0 k1 k2 k3 : Nat) : List Nat :=
  let n := data.length
  let lenPart : List Nat :=
    if n < 126 then [0x80 ||| n]
    else if n < 65536 then [0x80 ||| 126, (n >>> 8) &&& 0xFF, n &&& 0xFF]
    else (0x80 ||| 127) :: (List.range 8).map (fun i => (n >>> ((7 - i) * 8)) &&& 0xFF)
  let maskedPayload := (List.range n).map fun i =>
    (data.getD i 0) ^^^ maskByte (clientMaskKey k0 k1 k2 k3) i
  ((0x80 ||| opcode) :: lenPart) ++ ([k0, k1, k2, k3] ++ maskedPayload)

/-- Observable effects of the server-side connection code. `statusChange`
records each assignment to `status`; `socketWrite` records a frame handed to
Socket::write; `onMessage`/`onBinary`/`onClose` record callback invocations;
`tcpClose` would record closing the underlying TCP socket (teardown of the
file descriptor). -/
inductive WsEffect where
  | statusChange (st : WebSocketConnectionStatus)
  | socketWrite (frame : List Nat)
  | onMessage (msg : List Nat)
  | onBinary (data : List Nat)
  | onClose (code : Nat) (reason : List Nat)
  | tcpClose
  deriving Repr, DecidableEq

/-- Server-side connection state used by the framing code. -/
structure WebSocketConnection where
  status : WebSocketConnectionStatus := WebSocketConnectionStatus.CONNECTING
  deriving Repr, DecidableEq

/-- WebSocketConnection::close (websocket_server.cpp lines 326-356): no-op
when already CLOSED; otherwise set status to CLOSING, build and write a
CLOSE frame whose payload is the big-endian code followed by the reason
bytes, set status to CLOSED, and invoke onClose. Nothing in this function
(or its callers) closes the underlying TCP socket. -/
def WebSocketConnection.close (conn : WebSocketConnection) (code : Nat) (reason : List Nat) :
    WebSocketConnection × List WsEffect :=
  if conn.status = WebSocketConnectionStatus.CLOSED then (conn, [])
  else
    let close_payload := [(code >>> 8) &&& 0xFF, code &&& 0xFF] ++ reason
    let frame := buildFrameServer close_payload 0x8
    ({ conn with status := WebSocketConnectionStatus.CLOSED },
     [WsEffect.statusChange WebSocketConnectionStatus.CLOSING,
      WsEffect.socketWrite frame,
      WsEffect.statusChange WebSocketConnectionStatus.CLOSED,
      WsEffect.onClose code reason])

/-- Close code extraction in the CLOSE case of parseFrame (websocket_server.cpp
lines 448-454): the first two payload bytes big-endian, defaulting to 1000
when the payload carries no code. -/
def wsCloseCode (payload : List Nat) : Nat :=
  if 2 ≤ payload.length then ((payload.getD 0 0) <<< 8) ||| payload.getD 1 0 else 1000

/-- Close reason extraction in the CLOSE case of parseFrame: the payload
bytes after the code, when present. -/
def wsCloseReason (payload : List Nat) : List Nat :=
  if 2 ≤ payload.length then (if 2 < payload.length then payload.drop 2 else []) else []

/-- Opcode dispatch of WebSocketConnection::parseFrame (websocket_server.cpp
lines 433-485): TEXT invokes onMessage with the unmasked payload, BINARY
invokes onBinary, CLOSE extracts the code (default 1000) and reason and
calls close, PING writes back a PONG frame with the same payload, PONG and
every other opcode (including CONTINUATION = 0x0) do nothing. The FIN bit is
never consulted and no fragment accumulation exists. -/
def WebSocketConnection.handleFrame (conn : WebSocketConnection) (frame : WebSocketFrame) :
    WebSocketConnection × List WsEffect :=
  if frame.opcode = 0x1 then
    (conn, [WsEffect.onMessage frame.payload])
  else if frame.opcode = 0x2 then
    (conn, [WsEffect.onBinary frame.payload])
  else if frame.opcode = 0x8 then
    conn.close (wsCloseCode frame.payload) (wsCloseReason frame.payload)
  else if frame.opcode = 0x9 then
    (conn, [WsEffect.socketWrite (buildFrameServer frame.payload 0xA)])
  else
    (conn, [])

/-- WebSocketConnection::parseFrame (websocket_server.cpp lines 369-486):
parse one frame from the data; on incomplete data return unchanged with no
effects, otherwise dispatch on the opcode. -/
def WebSocketConnection.parseFrame (conn : WebSocketConnection) (data : List Nat) :
    WebSocketConnection × List WsEffect :=
  match parseFrameData data with
  | none => (conn, [])
  | some frame => conn.handleFrame frame

/-- Sequential delivery of several data chunks to the connection, one
parseFrame call per chunk (one Socket onData callback per tick), collecting
the effect trace. -/
def WebSocketConnection.parseFrames (conn : WebSocketConnection) (chunks : List (List Nat)) :
    WebSocketConnection × List WsEffect :=
  chunks.foldl
    (fun acc chunk =>
      let (conn', effs) := acc.1.parseFrame chunk
      (conn', acc.2 ++ effs))
    (conn, [])

/-- Messages delivered through the onMessage callback within a trace. -/
def onMessagePayloads (effs : List WsEffect) : List (List Nat) :=
  effs.filterMap fun e =>
    match e with
    | WsEffect.onMessage msg => some msg
    | _ => none

/-- HttpMethod from http_server.hpp. -/
inductive HttpMethod where
  | GET
  | POST
  | PUT
  | DELETE
  | HEAD
  | OPTIONS
  deriving Repr, DecidableEq

/-- HttpRequest fields used by route dispatch (http_server.hpp). -/
structure HttpRequest where
  method : HttpMethod := HttpMethod.GET
  path : String := "/"
  deriving Repr, DecidableEq

/-- HttpResponse with the defaults of http_server.hpp: status 200 "OK",
empty headers, empty body. -/
structure HttpResponse where
  status_code : Nat := 200
  status_text : String := "OK"
  headers : List (String × String) := []
  body : String := ""
  deriving Repr, DecidableEq

/-- Method-name switch of HttpServer::findRoute (http_server.cpp lines
181-205). -/
def methodString (m : HttpMethod) : String :=
  match m with
  | HttpMethod.GET => "GET"
  | HttpMethod.POST => "POST"
  | HttpMethod.PUT => "PUT"
  | HttpMethod.DELETE => "DELETE"
  | HttpMethod.HEAD => "HEAD"
  | HttpMethod.OPTIONS => "OPTIONS"

/-- HttpServer::findRoute: the route key is `<METHOD>:<path>`. -/
def findRoute (path : String) (method : HttpMethod) : String :=
  methodString method ++ ":" ++ path

/-- HttpServer::buildResponse (http_server.cpp lines 154-179): status line,
then the stored headers, then a Content-Length header exactly when the body
is non-empty (with value the body length), a blank line, and the body. -/
def buildResponse (r : HttpResponse) : String :=
  "HTTP/1.1 " ++ toString r.status_code ++ " " ++ r.status_text ++ "\r\n"
    ++ String.join (r.headers.map fun h => h.1 ++ ": " ++ h.2 ++ "\r\n")
    ++ (if r.body ≠ "" then "Content-Length: " ++ toString r.body.length ++ "\r\n" else "")
    ++ "\r\n"
    ++ (if r.body ≠ "" then r.body else "")

/-- Default body of the 404 response in HttpServer::handleRequest. -/
def notFoundBody : String :=
  "<h1>404 Not Found</h1><p>The requested resource was not found on this server.</p>"

/-- HttpServer::handleRequest (http_server.cpp lines 63-91), after parsing:
look up the route keyed by `<METHOD>:<path>`; run the handler on a
default-constructed response when found, otherwise fill in the 404 response;
build the response text and write it to the socket. The returned string is
the argument of that `socket.write` call. -/
def handleRequest (routes : List (String × (HttpRequest → HttpResponse → HttpResponse)))
    (request : HttpRequest) : String :=
  let response : HttpResponse := {}
  let response :=
    match routes.lookup (findRoute request.path request.method) with
    | some handler => handler request response
    | none =>
      { response with
        status_code := 404
        status_text := "Not Found"
        body := notFoundBody }
  buildResponse response

/-- Sequence task fields used by the wait-condition step (sequence.cpp). The
predicate itself is external; its outcome at an evaluation is passed in as a
boolean. -/
structure SequenceTask where
  period_ms : Nat := 0
  is_condition : Bool := false
  timeout_ms : Nat := 0
  deriving Repr, DecidableEq

/-- Outcome of one wait-condition evaluation of a Sequence. -/
inductive SeqAction where
  | advance
  | reschedule (delay_ms : Nat)
  | idle
  deriving Repr, DecidableEq

/-- Timer delay armed by Sequence::executeNextTask (sequence.cpp lines
66-104) for the current task: the remaining time stored by pause when there
is one, the task period otherwise. -/
def sequenceArmDelay (remaining_time_ms : Nat) (task : SequenceTask) : Nat :=
  if remaining_time_ms > 0 then remaining_time_ms else task.period_ms

/-- Sequence::executeCondition (sequence.cpp lines 108-149): runs when the
armed timer fires. When the sequence is stopped or paused, or the task is
not a wait-condition, nothing happens. Otherwise the predicate outcome
`cond` decides: true advances to the next task; false with elapsed time
since the step start below the timeout re-arms a timer for `period_ms`;
false at or past the timeout advances exactly like success. -/
def executeCondition (running paused : Bool) (task : SequenceTask) (cond : Bool)
    (elapsed_ms : Nat) : SeqAction :=
  if ¬running then SeqAction.idle
  else if paused then SeqAction.idle
  else if ¬task.is_condition then SeqAction.idle
  else if cond then SeqAction.advance
  else if elapsed_ms ≥ task.timeout_ms then SeqAction.advance
  else SeqAction.reschedule task.period_ms

/-! Theorems. Each claim has exactly one theorem, stated over the
definitions above; shared helper lemmas come first. -/

/-- C10: Buffer::getAt is total at the public interface: for an in-range
position it returns the byte stored at that position, and for any
out-of-range position it returns 0; as a const member on a pure value it
cannot modify the buffer, so in the embedding it is a plain function of the
buffer. -/
theorem buffer_getAt_total (b : websrv.Buffer) (pos : Nat) :
    (∀ h : pos < b.size, b.getAt pos = b.data.get ⟨pos, h⟩) ∧
    (b.size ≤ pos → b.getAt pos = 0) := by
  constructor
  · intro h
    have h' : pos < b.data.length := h
    simp [websrv.Buffer.getAt, h', List.getD_eq_getElem?_getD, List.getElem?_eq_getElem h',
      List.get_eq_getElem]
  · intro h
    have h' : ¬pos < b.data.length := by
      simp [websrv.Buffer.size] at h
      omega
    simp [websrv.Buffer.getAt, h']

/-- Witness for buffer_getAt_total at a concrete buffer, one in-range and one
out-of-range position. -/
theorem buffer_getAt_total_witness :
    websrv.Buffer.getAt ⟨[7, 8]⟩ 1 = 8 ∧ websrv.Buffer.getAt ⟨[7, 8]⟩ 5 = 0 :=
  ⟨((buffer_getAt_total ⟨[7, 8]⟩ 1).1 (by decide)).trans (by decide),
   (buffer_getAt_total ⟨[7, 8]⟩ 5).2 (by decide)⟩

/-- C8: a parsed request whose `<METHOD>:<path>` key matches no registered
route is answered with status 404, reason "Not Found", the non-empty default
HTML body, and a Content-Length header equal to the body length; the last
conjunct shows buildResponse omits Content-Length exactly when the body is
empty. -/
theorem http_404_default
    (routes : List (String × (HttpRequest → HttpResponse → HttpResponse)))
    (request : HttpRequest)
    (hmiss : routes.lookup (findRoute request.path request.method) = none) :
    handleRequest routes request =
      "HTTP/1.1 404 Not Found\r\nContent-Length: " ++ toString notFoundBody.length ++ "\r\n\r\n"
        ++ notFoundBody
    ∧ notFoundBody ≠ ""
    ∧ notFoundBody.length = 81
    ∧ (∀ r : HttpResponse, r.body = "" →
        buildResponse r =
          "HTTP/1.1 " ++ toString r.status_code ++ " " ++ r.status_text ++ "\r\n"
            ++ String.join (r.headers.map fun hd => hd.1 ++ ": " ++ hd.2 ++ "\r\n") ++ "\r\n") := by
  refine ⟨?_, by decide, by decide, ?_⟩
  · rw [handleRequest, hmiss]
    show buildResponse
        { status_code := 404, status_text := "Not Found", headers := [], body := notFoundBody } = _
    decide
  · intro r hr
    simp [buildResponse, hr]

/-- Witness for http_404_default: a GET of /nonexistent against an empty
route table. -/
theorem http_404_default_witness :
    handleRequest [] { method := HttpMethod.GET, path := "/nonexistent" } =
      "HTTP/1.1 404 Not Found\r\nContent-Length: " ++ toString notFoundBody.length ++ "\r\n\r\n"
        ++ notFoundBody :=
  (http_404_default [] { method := HttpMethod.GET, path := "/nonexistent" } rfl).1

/-- C9: for a running, unpaused sequence at a WaitCondition step with no
stored remainder, the timer is armed for `poll_ms`; when it fires, a true
predicate advances; a false predicate before the timeout re-arms a timer for
`poll_ms`; a false predicate at or past the timeout advances through the
same advance action as success (no error outcome exists). -/
theorem sequence_wait_condition (running paused : Bool) (task : SequenceTask)
    (remaining_time_ms elapsed_ms : Nat)
    (hrun : running = true) (hpause : paused = false)
    (hcond : task.is_condition = true) (hrem : remaining_time_ms = 0) :
    sequenceArmDelay remaining_time_ms task = task.period_ms
    ∧ executeCondition running paused task true elapsed_ms = SeqAction.advance
    ∧ (elapsed_ms < task.timeout_ms →
        executeCondition running paused task false elapsed_ms = SeqAction.reschedule task.period_ms)
    ∧ (elapsed_ms ≥ task.timeout_ms →
        executeCondition running paused task false elapsed_ms = SeqAction.advance) := by
  subst hrun hpause hrem
  refine ⟨by simp [sequenceArmDelay], by simp [executeCondition, hcond], ?_, ?_⟩
  · intro hlt
    have : ¬elapsed_ms ≥ task.timeout_ms := by omega
    simp [executeCondition, hcond, this]
  · intro hge
    simp [executeCondition, hcond, hge]

/-- Witness for sequence_wait_condition at a concrete task (100 ms poll,
1000 ms timeout) and elapsed times on both sides of the timeout. -/
theorem sequence_wait_condition_witness :
    sequenceArmDelay 0 ⟨100, true, 1000⟩ = 100
    ∧ executeCondition true false ⟨100, true, 1000⟩ true 100 = SeqAction.advance
    ∧ (100 < 1000 →
        executeCondition true false ⟨100, true, 1000⟩ false 100 = SeqAction.reschedule 100)
    ∧ (1200 ≥ 1000 →
        executeCondition true false ⟨100, true, 1000⟩ false 1200 = SeqAction.advance) :=
  ⟨(sequence_wait_condition true false ⟨100, true, 1000⟩ 0 100 rfl rfl rfl rfl).1,
   (sequence_wait_condition true false ⟨100, true, 1000⟩ 0 100 rfl rfl rfl rfl).2.1,
   fun _ => (sequence_wait_condition true false ⟨100, true, 1000⟩ 0 100 rfl rfl rfl rfl).2.2.1
     (by decide),
   fun _ => (sequence_wait_condition true false ⟨100, true, 1000⟩ 0 1200 rfl rfl rfl rfl).2.2.2
     (by decide)⟩

/-- C2 (code evaluation at the failing input): a registered socket whose
readiness mask is exactly POLLIN and whose `::read` fails with EAGAIN gets a
CLOSED result emitted for it: Socket::handleRead returns false for
would-block exactly as for EOF, and SocketManager::process maps every false
return to CLOSED. The claim (and the spec) say nothing is emitted on
EAGAIN. -/
theorem process_eagain_emits_closed :
    (websrv.SocketManager.process
      [⟨1, websrv.POLLIN⟩]
      ⟨fun _ => websrv.ReadOutcome.eagain, fun _ => 0⟩
      [(1, { file_descriptor := 0 })]
      ⟨fun _ => some websrv.POLLIN, fun _ => false⟩).2.2
      = [(websrv.SocketResultType.CLOSED, 1)] := by
  rfl

/-- C3 (code evaluation at the failing input): a socket whose head pending
write buffer holds 2 bytes, with the kernel accepting only 1 byte, still
pops the head buffer from the queue and releases it to the pool, dropping
the unwritten byte; no consumed offset exists. The claim says the buffer
must stay at the head with its offset advanced. -/
theorem handleWrite_partial_write_drops_buffer :
    websrv.Socket.handleWrite
      { file_descriptor := 0, pending_write_buffers := [⟨[10, 20]⟩] } 1
      = ({ file_descriptor := 0, pending_write_buffers := [] }, [⟨[10, 20]⟩], true) := by
  decide

/-- C6 (code evaluation at the failing input): one registered one-shot timer
with expiry 5 processed at time 10: Poller::processExpiredTimers executes
the application callback during the timer-processing step and erases the
timer; no expired flag is set (none exists in this implementation). The
claim says the reactor only flips an expired flag and never runs application
code for a timer. -/
theorem processExpiredTimers_runs_callback :
    websrv.processExpiredTimers 10 [(1, ⟨5, 0, false, true⟩)]
      = ([], [websrv.TimerEffect.callbackInvoked 1]) := by
  rfl

/-- Processing a chunk that parses to a CONTINUATION frame changes nothing
and emits nothing (the opcode falls through to the default case). -/
theorem parseFrame_cont_eq (conn : WebSocketConnection) (g : List Nat)
    (fg : WebSocketFrame) (hg : parseFrameData g = some fg) (hop : fg.opcode = 0x0) :
    conn.parseFrame g = (conn, []) := by
  simp [WebSocketConnection.parseFrame, hg, WebSocketConnection.handleFrame, hop]

/-- Folding parseFrame over chunks that all parse to CONTINUATION frames is
the identity on the accumulated state and trace. -/
theorem parseFrames_cont_aux (rest : List (List Nat))
    (hrest : ∀ g ∈ rest, ∃ fg, parseFrameData g = some fg ∧ fg.opcode = 0x0) :
    ∀ acc : WebSocketConnection × List WsEffect,
      rest.foldl
        (fun acc chunk =>
          let (conn', effs) := acc.1.parseFrame chunk
          (conn', acc.2 ++ effs))
        acc = acc := by
  induction rest with
  | nil => intro acc; rfl
  | cons g rest ih =>
    intro acc
    obtain ⟨fg, hg, hop⟩ := hrest g (by simp)
    rw [List.foldl_cons]
    have hstep :
        (let (conn', effs) := acc.1.parseFrame g
         (conn', acc.2 ++ effs)) = acc := by
      rw [parseFrame_cont_eq acc.1 g fg hg hop]
      simp
    rw [hstep]
    exact ih (fun g hgm => hrest g (List.mem_cons_of_mem _ hgm)) acc

/-- C5 counterexample: a TEXT message sent in two fragments (TEXT with FIN=0
carrying "ab", then CONTINUATION with FIN=1 carrying "cd", both masked with
a zero key) makes the server-side codec invoke onMessage exactly once but
with only the first fragment payload [97, 98]; the assembled message
[97, 98, 99, 100] required by the claim is never delivered. -/
theorem ws_fragmentation_counterexample :
    onMessagePayloads (WebSocketConnection.parseFrames ⟨WebSocketConnectionStatus.OPEN⟩
        [[0x01, 0x82, 0, 0, 0, 0, 97, 98], [0x80, 0x82, 0, 0, 0, 0, 99, 100]]).2
      = [[97, 98]]
    ∧ onMessagePayloads (WebSocketConnection.parseFrames ⟨WebSocketConnectionStatus.OPEN⟩
        [[0x01, 0x82, 0, 0, 0, 0, 97, 98], [0x80, 0x82, 0, 0, 0, 0, 99, 100]]).2
      ≠ [[97, 98, 99, 100]] := by
  decide

/-- C5 amended: for an incoming TEXT message split into a first TEXT frame
followed by CONTINUATION frames, delivered one frame per onData call, the
server-side codec invokes onMessage exactly once, with the unmasked payload
of the first fragment only; every CONTINUATION frame is ignored, so no
assembly of the fragments takes place. -/
theorem ws_fragmented_text_delivers_first_fragment
    (conn : WebSocketConnection) (first : List Nat) (rest : List (List Nat))
    (fr : WebSocketFrame)
    (hfirst : parseFrameData first = some fr) (hop : fr.opcode = 0x1)
    (hrest : ∀ g ∈ rest, ∃ fg, parseFrameData g = some fg ∧ fg.opcode = 0x0) :
    onMessagePayloads (conn.parseFrames (first :: rest)).2 = [fr.payload] := by
  rw [WebSocketConnection.parseFrames, List.foldl_cons]
  have hfold := parseFrames_cont_aux rest hrest
    (conn, [WsEffect.onMessage fr.payload])
  have hstep2 :
      (let (conn', effs) := (conn, ([] : List WsEffect)).1.parseFrame first
       (conn', ([] : List WsEffect) ++ effs)) = (conn, [WsEffect.onMessage fr.payload]) := by
    simp [WebSocketConnection.parseFrame, hfirst, WebSocketConnection.handleFrame, hop]
  rw [hstep2, hfold]
  rfl

/-- Witness for ws_fragmented_text_delivers_first_fragment at the concrete
two-fragment message of the counterexample. -/
theorem ws_fragmented_text_delivers_first_fragment_witness :
    onMessagePayloads (WebSocketConnection.parseFrames ⟨WebSocketConnectionStatus.OPEN⟩
        [[0x01, 0x82, 0, 0, 0, 0, 97, 98], [0x80, 0x82, 0, 0, 0, 0, 99, 100]]).2
      = [[97, 98]] :=
  ws_fragmented_text_delivers_first_fragment ⟨WebSocketConnectionStatus.OPEN⟩
    [0x01, 0x82, 0, 0, 0, 0, 97, 98] [[0x80, 0x82, 0, 0, 0, 0, 99, 100]]
    { fin := false, opcode := 0x1, masked := true, payload_length := 2,
      masking_key := 0, payload := [97, 98] }
    (by decide) rfl
    (by
      intro g hgm
      rw [List.mem_singleton] at hgm
      subst hgm
      exact ⟨{ fin := true, opcode := 0x0, masked := true, payload_length := 2,
               masking_key := 0, payload := [99, 100] }, by decide, rfl⟩)

/-- C7 counterexample: a Close frame with code 1000 received on an open
connection completes the close handshake (status ends CLOSED) but the trace
contains no closing of the underlying TCP connection; the final conjunct of
the claim is false at this input. -/
theorem ws_close_counterexample :
    (WebSocketConnection.parseFrame ⟨WebSocketConnectionStatus.OPEN⟩
        [0x88, 0x02, 0x03, 0xE8]).1.status = WebSocketConnectionStatus.CLOSED
    ∧ WsEffect.tcpClose ∉ (WebSocketConnection.parseFrame ⟨WebSocketConnectionStatus.OPEN⟩
        [0x88, 0x02, 0x03, 0xE8]).2 := by
  decide

/-- C7 amended: on receiving a Close frame on an open connection, the
connection replies with exactly one Close frame whose status code equals the
code carried by the received payload (1000 when the payload has no code),
passes through CLOSING and ends CLOSED, and invokes onClose; the underlying
TCP connection is not closed by this path (no teardown appears in the
trace). -/
theorem ws_close_echo (conn : WebSocketConnection) (data : List Nat)
    (fr : WebSocketFrame)
    (hopen : conn.status = WebSocketConnectionStatus.OPEN)
    (hparse : parseFrameData data = some fr) (hop : fr.opcode = 0x8) :
    conn.parseFrame data =
      ({ status := WebSocketConnectionStatus.CLOSED },
       [WsEffect.statusChange WebSocketConnectionStatus.CLOSING,
        WsEffect.socketWrite (buildFrameServer
          ([(wsCloseCode fr.payload >>> 8) &&& 0xFF, wsCloseCode fr.payload &&& 0xFF]
            ++ wsCloseReason fr.payload) 0x8),
        WsEffect.statusChange WebSocketConnectionStatus.CLOSED,
        WsEffect.onClose (wsCloseCode fr.payload) (wsCloseReason fr.payload)]) := by
  have hne : conn.status ≠ WebSocketConnectionStatus.CLOSED := by
    rw [hopen]; decide
  simp [WebSocketConnection.parseFrame, hparse, WebSocketConnection.handleFrame, hop,
    WebSocketConnection.close, hne]

/-- updateSock rewrites values in place and never changes the key list. -/
theorem updateSock_keys (l : List (websrv.PollableID × websrv.Socket))
    (id : websrv.PollableID) (s : websrv.Socket) :
    (websrv.updateSock l id s).map Prod.fst = l.map Prod.fst := by
  simp only [websrv.updateSock, List.map_map]
  apply List.map_congr_left
  intro p _
  by_cases h : p.1 = id
  · simp [h]
  · simp [h]

/-- Read phase preserves the socket-map key list. -/
theorem processRead_keys (io : websrv.SyscallOracle)
    (acc : List (websrv.PollableID × websrv.Socket) × List (websrv.SocketResultType × websrv.PollableID))
    (ev : websrv.PollerEvent) (socket : websrv.Socket) :
    ((websrv.processRead io acc ev socket).1).map Prod.fst = (acc.1).map Prod.fst := by
  rw [websrv.processRead]
  split
  · exact updateSock_keys _ _ _
  · rfl

/-- Write phase preserves the socket-map key list. -/
theorem processWrite_keys (io : websrv.SyscallOracle)
    (acc : List (websrv.PollableID × websrv.Socket) × List (websrv.SocketResultType × websrv.PollableID))
    (ev : websrv.PollerEvent) :
    ((websrv.processWrite io acc ev).1).map Prod.fst = (acc.1).map Prod.fst := by
  rw [websrv.processWrite]
  split
  · split
    · rfl
    · exact updateSock_keys _ _ _
  · rfl

/-- One step of the event loop preserves the socket-map key list. -/
theorem processOneEvent_keys (io : websrv.SyscallOracle)
    (acc : List (websrv.PollableID × websrv.Socket) × List (websrv.SocketResultType × websrv.PollableID))
    (ev : websrv.PollerEvent) :
    ((websrv.processOneEvent io acc ev).1).map Prod.fst = (acc.1).map Prod.fst := by
  rw [websrv.processOneEvent]
  split
  · rfl
  · split
    · rfl
    · rw [processWrite_keys, processRead_keys]

/-- The whole event-processing phase preserves the socket-map key list. -/
theorem processEvents_keys (events : List websrv.PollerEvent) (io : websrv.SyscallOracle)
    (socks : List (websrv.PollableID × websrv.Socket)) :
    ((websrv.processEvents events io socks).1).map Prod.fst = socks.map Prod.fst := by
  have haux : ∀ acc : List (websrv.PollableID × websrv.Socket) ×
      List (websrv.SocketResultType × websrv.PollableID),
      ((events.foldl (websrv.processOneEvent io) acc).1).map Prod.fst = (acc.1).map Prod.fst := by
    induction events with
    | nil => intro acc; rfl
    | cons ev rest ih =>
      intro acc
      rw [List.foldl_cons]
      rw [ih (websrv.processOneEvent io acc ev)]
      exact processOneEvent_keys io acc ev
  exact haux (socks, [])

/-- Enable/disable for one socket leaves the poller state of every other id
unchanged. -/
theorem reconcile_step_other (st : websrv.PollerState) (p : websrv.PollableID × websrv.Socket)
    (id : websrv.PollableID) (h : p.1 ≠ id) :
    ((if p.2.pending_write_buffers.length > 0 then st.enablePollout p.1
      else st.disablePollout p.1).pending id = st.pending id)
    ∧ ((if p.2.pending_write_buffers.length > 0 then st.enablePollout p.1
        else st.disablePollout p.1).entries id = st.entries id) := by
  have h' : ¬(id = p.1) := fun hh => h hh.symm
  by_cases hc : p.2.pending_write_buffers.length > 0 <;>
    simp [hc, websrv.PollerState.enablePollout, websrv.PollerState.disablePollout, h']

/-- The reconciliation fold leaves ids outside the socket map untouched. -/
theorem reconcile_untouched (socks : List (websrv.PollableID × websrv.Socket))
    (id : websrv.PollableID) :
    ∀ st : websrv.PollerState, id ∉ socks.map Prod.fst →
      (websrv.reconcilePollout socks st).pending id = st.pending id
      ∧ (websrv.reconcilePollout socks st).entries id = st.entries id := by
  induction socks with
  | nil => exact fun st _ => ⟨rfl, rfl⟩
  | cons p rest ih =>
    intro st h
    have hp : p.1 ≠ id := by
      intro hh
      exact h (by simp [hh])
    have hrest : id ∉ rest.map Prod.fst := by
      intro hh
      exact h (by simp [hh])
    have hstep := reconcile_step_other st p id hp
    have hfold := ih (if p.2.pending_write_buffers.length > 0 then st.enablePollout p.1
      else st.disablePollout p.1) hrest
    refine ⟨?_, ?_⟩
    · rw [websrv.reconcilePollout, List.foldl_cons]
      rw [← websrv.reconcilePollout]
      rw [hfold.1, hstep.1]
    · rw [websrv.reconcilePollout, List.foldl_cons]
      rw [← websrv.reconcilePollout]
      rw [hfold.2, hstep.2]

/-- After the reconciliation pass, the pollout_pending flag of each managed
socket matches its pending-write queue, and its poll entry is unchanged
(queue non-empty) or has POLLOUT cleared (queue empty). -/
theorem reconcile_spec (socks : List (websrv.PollableID × websrv.Socket))
    (id : websrv.PollableID) (s : websrv.Socket) :
    ∀ st : websrv.PollerState, (socks.map Prod.fst).Nodup → (id, s) ∈ socks →
      ((websrv.reconcilePollout socks st).pending id
          = decide (s.pending_write_buffers.length > 0))
      ∧ (s.pending_write_buffers.length > 0 →
          (websrv.reconcilePollout socks st).entries id = st.entries id)
      ∧ (s.pending_write_buffers.length = 0 →
          (websrv.reconcilePollout socks st).entries id
            = (st.entries id).map (fun e => e &&& 0xFFFB)) := by
  induction socks with
  | nil => exact fun st _ hmem => absurd hmem (List.not_mem_nil _)
  | cons p rest ih =>
    intro st hnodup hmem
    rw [List.mem_cons] at hmem
    rw [List.map_cons, List.nodup_cons] at hnodup
    rcases hmem with heq | hmem
    · subst heq
      have hrest : id ∉ rest.map Prod.fst := hnodup.1
      have hfold := reconcile_untouched rest id
        (if s.pending_write_buffers.length > 0 then st.enablePollout id
          else st.disablePollout id) hrest
      by_cases hc : s.pending_write_buffers.length > 0
      · refine ⟨?_, fun _ => ?_, fun h0 => absurd hc (by omega)⟩
        · rw [websrv.reconcilePollout, List.foldl_cons, ← websrv.reconcilePollout]
          have : (if s.pending_write_buffers.length > 0 then st.enablePollout id
              else st.disablePollout id) = st.enablePollout id := by simp [hc]
          rw [this] at hfold ⊢
          rw [hfold.1]
          simp [websrv.PollerState.enablePollout, hc]
        · rw [websrv.reconcilePollout, List.foldl_cons, ← websrv.reconcilePollout]
          have : (if s.pending_write_buffers.length > 0 then st.enablePollout id
              else st.disablePollout id) = st.enablePollout id := by simp [hc]
          rw [this] at hfold ⊢
          rw [hfold.2]
          simp [websrv.PollerState.enablePollout]
      · have hc0 : s.pending_write_buffers.length = 0 := by omega
        refine ⟨?_, fun h1 => absurd h1 hc, fun _ => ?_⟩
        · rw [websrv.reconcilePollout, List.foldl_cons, ← websrv.reconcilePollout]
          have : (if s.pending_write_buffers.length > 0 then st.enablePollout id
              else st.disablePollout id) = st.disablePollout id := by simp [hc]
          rw [this] at hfold ⊢
          rw [hfold.1]
          simp [websrv.PollerState.disablePollout, hc0]
        · rw [websrv.reconcilePollout, List.foldl_cons, ← websrv.reconcilePollout]
          have : (if s.pending_write_buffers.length > 0 then st.enablePollout id
              else st.disablePollout id) = st.disablePollout id := by simp [hc]
          rw [this] at hfold ⊢
          rw [hfold.2]
          simp [websrv.PollerState.disablePollout]
    · have hid : id ∈ rest.map Prod.fst :=
        List.mem_map.mpr ⟨(id, s), hmem, rfl⟩
      have hp : p.1 ≠ id := fun hh => hnodup.1 (hh ▸ hid)
      have hstep := reconcile_step_other st p id hp
      have hih := ih (if p.2.pending_write_buffers.length > 0 then st.enablePollout p.1
        else st.disablePollout p.1) hnodup.2 hmem
      refine ⟨?_, fun h1 => ?_, fun h0 => ?_⟩
      · rw [websrv.reconcilePollout, List.foldl_cons, ← websrv.reconcilePollout]
        exact hih.1
      · rw [websrv.reconcilePollout, List.foldl_cons, ← websrv.reconcilePollout]
        rw [hih.2.1 h1, hstep.2]
      · rw [websrv.reconcilePollout, List.foldl_cons, ← websrv.reconcilePollout]
        rw [hih.2.2 h0, hstep.2]

/-- Setting POLLOUT in a mask makes the POLLOUT test non-zero. -/
theorem pollout_set_ne_zero (e : Nat) : (e ||| websrv.POLLOUT) &&& websrv.POLLOUT ≠ 0 := by
  show (e ||| 4) &&& 4 ≠ 0
  intro h0
  have ht : Nat.testBit ((e ||| 4) &&& 4) 2 = true := by
    rw [Nat.testBit_and, Nat.testBit_or]
    have h4 : Nat.testBit (4 : Nat) 2 = true := by decide
    rw [h4]
    simp
  rw [h0] at ht
  simp at ht

/-- Clearing POLLOUT through the 16-bit complement mask makes the POLLOUT
test zero. -/
theorem pollout_cleared_zero (e : Nat) : (e &&& 0xFFFB) &&& websrv.POLLOUT = 0 := by
  show (e &&& 0xFFFB) &&& 4 = 0
  rw [Nat.and_assoc]
  have : (0xFFFB : Nat) &&& 4 = 0 := by decide
  rw [this, Nat.and_zero]

/-- C1: for every socket registered with the SocketManager when
SocketManager::process returns, the requested event mask the reactor hands
to the next `poll(2)` call (its entry after updatePollEvents runs at the
start of the next tick) has POLLOUT set exactly when the pending-write queue
of that socket is non-empty. -/
theorem pollout_invariant
    (events : List websrv.PollerEvent) (io : websrv.SyscallOracle)
    (socks : List (websrv.PollableID × websrv.Socket)) (st : websrv.PollerState)
    (hnodup : (socks.map Prod.fst).Nodup)
    (id : websrv.PollableID) (s : websrv.Socket) (e : Nat)
    (hmem : (id, s) ∈ (websrv.SocketManager.process events io socks st).1)
    (hentry : ((websrv.SocketManager.process events io socks st).2.1.updatePollEvents).entries id
        = some e) :
    s.pending_write_buffers ≠ [] ↔ e &&& websrv.POLLOUT ≠ 0 := by
  have hnodup' : (((websrv.processEvents events io socks).1).map Prod.fst).Nodup := by
    rw [processEvents_keys]
    exact hnodup
  have hmem' : (id, s) ∈ (websrv.processEvents events io socks).1 := hmem
  obtain ⟨hpend, hpos, hzero⟩ :=
    reconcile_spec (websrv.processEvents events io socks).1 id s st hnodup' hmem'
  have hupdate : ((websrv.SocketManager.process events io socks st).2.1.updatePollEvents).entries id
      = (if (websrv.reconcilePollout (websrv.processEvents events io socks).1 st).pending id
            ∧ ((websrv.reconcilePollout (websrv.processEvents events io socks).1 st).entries id).isSome
         then ((websrv.reconcilePollout (websrv.processEvents events io socks).1 st).entries id).map
           (fun x => x ||| websrv.POLLOUT)
         else (websrv.reconcilePollout (websrv.processEvents events io socks).1 st).entries id) := rfl
  by_cases hq : s.pending_write_buffers.length > 0
  · have hp : (websrv.reconcilePollout (websrv.processEvents events io socks).1 st).pending id
        = true := by
      rw [hpend]
      simp [hq]
    cases hopt : (websrv.reconcilePollout (websrv.processEvents events io socks).1 st).entries id with
    | none =>
      rw [hupdate, hopt, hp] at hentry
      simp at hentry
    | some e0 =>
      rw [hupdate, hopt, hp] at hentry
      simp at hentry
      refine iff_of_true ?_ ?_
      · intro hnil
        rw [hnil] at hq
        simp at hq
      · rw [← hentry]
        exact pollout_set_ne_zero e0
  · have hq0 : s.pending_write_buffers.length = 0 := by omega
    have hp : (websrv.reconcilePollout (websrv.processEvents events io socks).1 st).pending id
        = false := by
      rw [hpend]
      simp [hq0]
    rw [hupdate, hp] at hentry
    simp at hentry
    rw [hzero hq0] at hentry
    obtain ⟨e0, he0, rfl⟩ := Option.map_eq_some'.mp hentry
    refine iff_of_false ?_ ?_
    · have : s.pending_write_buffers = [] := List.length_eq_zero.mp hq0
      simp [this]
    · simp [pollout_cleared_zero e0]

/-- Witness for pollout_invariant: a single registered socket with one
pending write buffer, over an empty event list; the next-tick entry mask is
POLLIN with POLLOUT set (value 5). -/
theorem pollout_invariant_witness :
    ([⟨[5]⟩] : List websrv.Buffer) ≠ [] ↔ (5 : Nat) &&& websrv.POLLOUT ≠ 0 :=
  pollout_invariant [] ⟨fun _ => websrv.ReadOutcome.eagain, fun _ => 0⟩
    [(1, { file_descriptor := 0, pending_write_buffers := [⟨[5]⟩] })]
    ⟨fun j => if j = 1 then some websrv.POLLIN else none, fun _ => false⟩
    (by decide) 1 { file_descriptor := 0, pending_write_buffers := [⟨[5]⟩] } 5
    (by decide) (by decide)

/-- Witness for ws_close_echo at a concrete Close frame carrying code 1000. -/
theorem ws_close_echo_witness :
    WebSocketConnection.parseFrame ⟨WebSocketConnectionStatus.OPEN⟩ [0x88, 0x02, 0x03, 0xE8] =
      ({ status := WebSocketConnectionStatus.CLOSED },
       [WsEffect.statusChange WebSocketConnectionStatus.CLOSING,
        WsEffect.socketWrite (buildFrameServer
          ([(wsCloseCode [0x03, 0xE8] >>> 8) &&& 0xFF, wsCloseCode [0x03, 0xE8] &&& 0xFF]
            ++ wsCloseReason [0x03, 0xE8]) 0x8),
        WsEffect.statusChange WebSocketConnectionStatus.CLOSED,
        WsEffect.onClose (wsCloseCode [0x03, 0xE8]) (wsCloseReason [0x03, 0xE8])]) :=
  ws_close_echo ⟨WebSocketConnectionStatus.OPEN⟩ [0x88, 0x02, 0x03, 0xE8]
    { fin := true, opcode := 0x8, masked := false, payload_length := 2,
      masking_key := 0, payload := [0x03, 0xE8] }
    rfl (by decide) rfl

/-- Indexing an append past the left list lands in the right list. -/
theorem getD_append_right_len (l1 l2 : List Nat) (i d : Nat) :
    (l1 ++ l2).getD (l1.length + i) d = l2.getD i d := by
  induction l1 with
  | nil => simp
  | cons a t ih =>
    rw [List.cons_append, List.length_cons]
    rw [show t.length + 1 + i = (t.length + i) + 1 by omega]
    rw [List.getD_cons_succ]
    exact ih

/-- Composition of the three parse phases into the parser result. -/
theorem parseFrameData_eq (data : List Nat) (h2 : ¬ data.length < 2) (plen off1 : Nat)
    (hext : parseExtLen data (data.getD 1 0 &&& 0x7F) = some (plen, off1))
    (mkey off2 : Nat)
    (hmask : parseMaskKey data (data.getD 1 0 &&& 0x80 != 0) off1 = some (mkey, off2))
    (payload : List Nat)
    (hpay : parsePayload data (data.getD 1 0 &&& 0x80 != 0) mkey off2 plen = some payload) :
    parseFrameData data = some
      { fin := data.getD 0 0 &&& 0x80 != 0, rsv1 := data.getD 0 0 &&& 0x40 != 0,
        rsv2 := data.getD 0 0 &&& 0x20 != 0, rsv3 := data.getD 0 0 &&& 0x10 != 0,
        opcode := data.getD 0 0 &&& 0x0F, masked := data.getD 1 0 &&& 0x80 != 0,
        payload_length := plen, masking_key := mkey, payload := payload } := by
  simp only [parseFrameData, if_neg h2, hext, hmask, hpay]

/-- Indexing a mapped range in bounds applies the function. -/
theorem getD_map_range (f : Nat → Nat) (n i : Nat) (h : i < n) :
    ((List.range n).map f).getD i 0 = f i := by
  rw [List.getD_eq_getElem?_getD, List.getElem?_map, List.getElem?_range h]
  rfl

/-- Mapping positional reads over the index range rebuilds the list. -/
theorem map_range_getD (l : List Nat) :
    (List.range l.length).map (fun i => l.getD i 0) = l := by
  induction l with
  | nil => rfl
  | cons a t ih =>
    rw [List.length_cons, List.range_succ_eq_map, List.map_cons, List.map_map]
    rw [List.getD_cons_zero]
    have htail : (List.range t.length).map ((fun i => (a :: t).getD i 0) ∘ Nat.succ)
        = (List.range t.length).map (fun i => t.getD i 0) := by
      apply List.map_congr_left
      intro i _
      simp
    rw [htail, ih]

/-- Unmasking in parsePayload inverts the masking done when the frame was
built: reading a masked payload section with the same key returns the
original bytes. -/
theorem parsePayload_masked_inverse (hdr p : List Nat) (mkey : Nat) :
    parsePayload (hdr ++ (List.range p.length).map fun i => p.getD i 0 ^^^ maskByte mkey i)
      true mkey hdr.length p.length = some p := by
  rw [parsePayload]
  rw [if_neg (by simp)]
  congr 1
  have hstep : ∀ i ∈ List.range p.length,
      ((hdr ++ (List.range p.length).map fun j => p.getD j 0 ^^^ maskByte mkey j).getD
          (hdr.length + i) 0) ^^^ maskByte mkey i
        = p.getD i 0 := by
    intro i hi
    rw [List.mem_range] at hi
    rw [getD_append_right_len]
    rw [getD_map_range _ _ _ hi]
    exact Nat.xor_cancel_right _ _
  calc (List.range p.length).map (fun i =>
          let b := (hdr ++ (List.range p.length).map fun j =>
            p.getD j 0 ^^^ maskByte mkey j).getD (hdr.length + i) 0
          if true then b ^^^ maskByte mkey i else b)
      = (List.range p.length).map (fun i => p.getD i 0) := by
        apply List.map_congr_left
        intro i hi
        show ((hdr ++ (List.range p.length).map fun j =>
            p.getD j 0 ^^^ maskByte mkey j).getD (hdr.length + i) 0) ^^^ maskByte mkey i
          = p.getD i 0
        exact hstep i hi
    _ = p := map_range_getD p

/-- Reading an unmasked payload section returns the stored bytes. -/
theorem parsePayload_unmasked_id (hdr p : List Nat) (mkey : Nat) :
    parsePayload (hdr ++ p) false mkey hdr.length p.length = some p := by
  rw [parsePayload]
  rw [if_neg (by simp)]
  congr 1
  calc (List.range p.length).map (fun i =>
          let b := (hdr ++ p).getD (hdr.length + i) 0
          if false then b ^^^ maskByte mkey i else b)
      = (List.range p.length).map (fun i => p.getD i 0) := by
        apply List.map_congr_left
        intro i hi
        show (hdr ++ p).getD (hdr.length + i) 0 = p.getD i 0
        exact getD_append_right_len hdr p i 0
    _ = p := map_range_getD p

/-- OR of a shifted value with a small value is addition. -/
theorem or_add_pow (n a b : Nat) (hb : b < 2 ^ n) : a * 2 ^ n ||| b = a * 2 ^ n + b := by
  rw [Nat.mul_comm a]
  exact (Nat.mul_add_lt_is_or hb a).symm

/-- One step of big-endian byte accumulation as arithmetic. -/
theorem or_step (a b : Nat) (hb : b < 256) : a <<< 8 ||| b = a * 256 + b := by
  have h : a * 2 ^ 8 ||| b = a * 2 ^ 8 + b := or_add_pow 8 a b (by norm_num; omega)
  rw [Nat.shiftLeft_eq]
  norm_num at h ⊢
  exact h

/-- Masking with 0xFF is mod 256. -/
theorem and_255_eq (x : Nat) : x &&& 0xFF = x % 256 := by
  have h := Nat.and_pow_two_sub_one_eq_mod x 8
  norm_num at h
  exact h

/-- Masking with 0x7F is mod 128. -/
theorem and_127_eq (x : Nat) : x &&& 0x7F = x % 128 := by
  have h := Nat.and_pow_two_sub_one_eq_mod x 7
  norm_num at h
  exact h

/-- Masking with 0x0F is mod 16. -/
theorem and_15_eq (x : Nat) : x &&& 0x0F = x % 16 := by
  have h := Nat.and_pow_two_sub_one_eq_mod x 4
  norm_num at h
  exact h

/-- Setting the top bit of a 7-bit value is addition of 128. -/
theorem or_128_eq (L : Nat) (h : L < 128) : 128 ||| L = 128 + L := by
  have h2 : (2 : Nat) ^ 7 * 1 + L = 2 ^ 7 * 1 ||| L := Nat.mul_add_lt_is_or (by norm_num; omega) 1
  norm_num at h2
  omega

/-- The top bit of a value below 128 is clear. -/
theorem and_128_of_lt (L : Nat) (h : L < 128) : L &&& 128 = 0 := by
  have h1 : L &&& 2 ^ 7 = (L.testBit 7).toNat * 2 ^ 7 := Nat.and_two_pow L 7
  have h2 : L.testBit 7 = false := Nat.testBit_lt_two_pow (by norm_num; omega)
  rw [h2] at h1
  norm_num at h1
  exact h1

/-- The top bit of 128 plus a 7-bit value is set. -/
theorem add_128_and_128 (L : Nat) (h : L < 128) : (128 + L) &&& 128 = 128 := by
  rw [← or_128_eq L h, Nat.and_distrib_right, and_128_of_lt L h]
  norm_num

/-- A value whose bit k is clear ANDs with 2^k to zero. -/
theorem and_pow_zero (x k : Nat) (h : x / 2 ^ k % 2 = 0) : x &&& 2 ^ k = 0 := by
  have h1 : x &&& 2 ^ k = (x.testBit k).toNat * 2 ^ k := Nat.and_two_pow x k
  have h2 : x.testBit k = false := by
    rw [Nat.testBit_to_div_mod]
    simp [h]
  rw [h2] at h1
  norm_num at h1
  exact h1

/-- Fields decoded from the first frame byte `0x80 | opcode`: FIN set, all
reserved bits clear, opcode recovered. -/
theorem b0_fields (op : Nat) (hop : op < 16) :
    ((0x80 ||| op : Nat) &&& 0x80 != 0) = true
    ∧ ((0x80 ||| op : Nat) &&& 0x40 != 0) = false
    ∧ ((0x80 ||| op : Nat) &&& 0x20 != 0) = false
    ∧ ((0x80 ||| op : Nat) &&& 0x10 != 0) = false
    ∧ (0x80 ||| op : Nat) &&& 0x0F = op := by
  have hb0 : (0x80 ||| op : Nat) = 128 + op := or_128_eq op (by omega)
  refine ⟨?_, ?_, ?_, ?_, ?_⟩
  · rw [hb0, add_128_and_128 op (by omega)]
    rfl
  · rw [hb0]
    have h6 := and_pow_zero (128 + op) 6 (by omega)
    norm_num at h6
    rw [h6]
    rfl
  · rw [hb0]
    have h5 := and_pow_zero (128 + op) 5 (by omega)
    norm_num at h5
    rw [h5]
    rfl
  · rw [hb0]
    have h4 := and_pow_zero (128 + op) 4 (by omega)
    norm_num at h4
    rw [h4]
    rfl
  · rw [hb0, and_15_eq]
    omega

/-- Fields decoded from a client second byte `0x80 | len` with a 7-bit
length: MASK set, length recovered. -/
theorem b1_client_small (n : Nat) (h : n < 126) :
    ((0x80 ||| n : Nat) &&& 0x80 != 0) = true ∧ (0x80 ||| n : Nat) &&& 0x7F = n := by
  have hb1 : (0x80 ||| n : Nat) = 128 + n := or_128_eq n (by omega)
  constructor
  · rw [hb1, add_128_and_128 n (by omega)]
    rfl
  · rw [hb1, and_127_eq]
    omega

/-- Fields decoded from a server second byte `0x00 | len` with a 7-bit
length: MASK clear, length recovered. -/
theorem b1_server_small (n : Nat) (h : n < 126) :
    ((0x00 ||| n : Nat) &&& 0x80 != 0) = false ∧ (0x00 ||| n : Nat) &&& 0x7F = n := by
  rw [Nat.zero_or]
  constructor
  · rw [show (n &&& 0x80) = 0 from and_128_of_lt n (by omega)]
    rfl
  · rw [and_127_eq]
    omega

/-- The 32-bit mask key the parser assembles from the four key bytes equals
the key the client builder accumulated. -/
theorem mask_key_assemble (k0 k1 k2 k3 : Nat)
    (h1 : k1 < 256) (h2 : k2 < 256) (h3 : k3 < 256) :
    (k0 <<< 24) ||| (k1 <<< 16) ||| (k2 <<< 8) ||| k3 = clientMaskKey k0 k1 k2 k3 := by
  have e1 : (k0 <<< 24) ||| (k1 <<< 16) = k0 * 2 ^ 24 + k1 * 2 ^ 16 := by
    rw [Nat.shiftLeft_eq, Nat.shiftLeft_eq]
    exact or_add_pow 24 k0 (k1 * 2 ^ 16) (by norm_num; omega)
  have e2 : (k0 * 2 ^ 24 + k1 * 2 ^ 16) ||| (k2 <<< 8)
      = k0 * 2 ^ 24 + k1 * 2 ^ 16 + k2 * 2 ^ 8 := by
    rw [Nat.shiftLeft_eq]
    have hsum : k0 * 2 ^ 24 + k1 * 2 ^ 16 = (k0 * 2 ^ 8 + k1) * 2 ^ 16 := by ring
    rw [hsum]
    rw [or_add_pow 16 (k0 * 2 ^ 8 + k1) (k2 * 2 ^ 8) (by norm_num; omega)]
  have e3 : (k0 * 2 ^ 24 + k1 * 2 ^ 16 + k2 * 2 ^ 8) ||| k3
      = k0 * 2 ^ 24 + k1 * 2 ^ 16 + k2 * 2 ^ 8 + k3 := by
    have hsum : k0 * 2 ^ 24 + k1 * 2 ^ 16 + k2 * 2 ^ 8
        = (k0 * 2 ^ 16 + k1 * 2 ^ 8 + k2) * 2 ^ 8 := by ring
    rw [hsum]
    rw [or_add_pow 8 (k0 * 2 ^ 16 + k1 * 2 ^ 8 + k2) k3 (by norm_num; omega)]
  have f0 : ((0 : Nat) <<< 8) ||| k0 = k0 := by
    rw [Nat.zero_shiftLeft, Nat.zero_or]
  have f1 : k0 <<< 8 ||| k1 = k0 * 256 + k1 := or_step k0 k1 h1
  have f2 : (k0 * 256 + k1) <<< 8 ||| k2 = (k0 * 256 + k1) * 256 + k2 :=
    or_step (k0 * 256 + k1) k2 h2
  have f3 : ((k0 * 256 + k1) * 256 + k2) <<< 8 ||| k3
      = ((k0 * 256 + k1) * 256 + k2) * 256 + k3 :=
    or_step ((k0 * 256 + k1) * 256 + k2) k3 h3
  rw [clientMaskKey, e1, e2, e3, f0, f1, f2, f3]
  ring

/-- Big-endian 16-bit length decode inverts the encode. -/
theorem len16_decode (m : Nat) (h2 : m < 65536) :
    (((m >>> 8) &&& 0xFF) <<< 8) ||| (m &&& 0xFF) = m := by
  rw [and_255_eq, and_255_eq]
  rw [or_step _ _ (by omega)]
  rw [Nat.shiftRight_eq_div_pow]
  norm_num
  omega

/-- Big-endian 64-bit length decode inverts the encode. -/
theorem be8_decode (n : Nat) (hn : n < 2 ^ 64) :
    ((((((((0 <<< 8 ||| (n >>> 56 &&& 0xFF)) <<< 8 ||| (n >>> 48 &&& 0xFF)) <<< 8
      ||| (n >>> 40 &&& 0xFF)) <<< 8 ||| (n >>> 32 &&& 0xFF)) <<< 8
      ||| (n >>> 24 &&& 0xFF)) <<< 8 ||| (n >>> 16 &&& 0xFF)) <<< 8
      ||| (n >>> 8 &&& 0xFF)) <<< 8) ||| (n &&& 0xFF) = n := by
  have hn' : n < 18446744073709551616 := by norm_num at hn; exact hn
  rw [or_step, or_step, or_step, or_step, or_step, or_step, or_step, or_step]
  · simp only [and_255_eq, Nat.shiftRight_eq_div_pow]
    norm_num
    omega
  all_goals rw [and_255_eq]
  all_goals omega

/-- Parsing a client-built (masked) frame recovers FIN, the opcode, the
payload length, the mask key and the payload, across all three length
encodings. -/
theorem parse_buildFrameClient (p : List Nat) (op k0 k1 k2 k3 : Nat)
    (hop : op < 16) (hk1 : k1 < 256) (hk2 : k2 < 256) (hk3 : k3 < 256)
    (hlen : p.length < 2 ^ 64) :
    parseFrameData (buildFrameClient p op k0 k1 k2 k3)
      = some { fin := true, rsv1 := false, rsv2 := false, rsv3 := false, opcode := op,
               masked := true, payload_length := p.length,
               masking_key := clientMaskKey k0 k1 k2 k3, payload := p } := by
  have hb0 := b0_fields op hop
  rcases Nat.lt_or_ge p.length 126 with hn1 | hn1
  · -- 7-bit length
    have hF : buildFrameClient p op k0 k1 k2 k3
        = (0x80 ||| op) :: (0x80 ||| p.length) :: k0 :: k1 :: k2 :: k3 ::
          ((List.range p.length).map fun i =>
            p.getD i 0 ^^^ maskByte (clientMaskKey k0 k1 k2 k3) i) := by
      simp only [buildFrameClient, if_pos hn1, List.cons_append, List.singleton_append,
        List.nil_append]
    rw [hF]
    have hb1 := b1_client_small p.length hn1
    have hg0 : ((0x80 ||| op) :: (0x80 ||| p.length) :: k0 :: k1 :: k2 :: k3 ::
        ((List.range p.length).map fun i =>
          p.getD i 0 ^^^ maskByte (clientMaskKey k0 k1 k2 k3) i)).getD 0 0
        = 0x80 ||| op := rfl
    have hg1 : ((0x80 ||| op) :: (0x80 ||| p.length) :: k0 :: k1 :: k2 :: k3 ::
        ((List.range p.length).map fun i =>
          p.getD i 0 ^^^ maskByte (clientMaskKey k0 k1 k2 k3) i)).getD 1 0
        = 0x80 ||| p.length := rfl
    have h2 : ¬ ((0x80 ||| op) :: (0x80 ||| p.length) :: k0 :: k1 :: k2 :: k3 ::
        ((List.range p.length).map fun i =>
          p.getD i 0 ^^^ maskByte (clientMaskKey k0 k1 k2 k3) i)).length < 2 := by
      simp
    have hext : parseExtLen ((0x80 ||| op) :: (0x80 ||| p.length) :: k0 :: k1 :: k2 :: k3 ::
        ((List.range p.length).map fun i =>
          p.getD i 0 ^^^ maskByte (clientMaskKey k0 k1 k2 k3) i))
        (((0x80 ||| op) :: (0x80 ||| p.length) :: k0 :: k1 :: k2 :: k3 ::
          ((List.range p.length).map fun i =>
            p.getD i 0 ^^^ maskByte (clientMaskKey k0 k1 k2 k3) i)).getD 1 0 &&& 0x7F)
        = some (p.length, 2) := by
      rw [hg1, hb1.2, parseExtLen]
      rw [if_neg (by omega), if_neg (by omega)]
    have hmask : parseMaskKey ((0x80 ||| op) :: (0x80 ||| p.length) :: k0 :: k1 :: k2 :: k3 ::
        ((List.range p.length).map fun i =>
          p.getD i 0 ^^^ maskByte (clientMaskKey k0 k1 k2 k3) i))
        ((((0x80 ||| op) :: (0x80 ||| p.length) :: k0 :: k1 :: k2 :: k3 ::
          ((List.range p.length).map fun i =>
            p.getD i 0 ^^^ maskByte (clientMaskKey k0 k1 k2 k3) i)).getD 1 0 &&& 0x80 != 0)) 2
        = some (clientMaskKey k0 k1 k2 k3, 6) := by
      rw [hg1, hb1.1, parseMaskKey]
      rw [if_pos rfl]
      rw [if_neg (by simp)]
      show some ((k0 <<< 24) ||| (k1 <<< 16) ||| (k2 <<< 8) ||| k3, 6) = _
      rw [mask_key_assemble k0 k1 k2 k3 hk1 hk2 hk3]
    have hpay : parsePayload ((0x80 ||| op) :: (0x80 ||| p.length) :: k0 :: k1 :: k2 :: k3 ::
        ((List.range p.length).map fun i =>
          p.getD i 0 ^^^ maskByte (clientMaskKey k0 k1 k2 k3) i))
        ((((0x80 ||| op) :: (0x80 ||| p.length) :: k0 :: k1 :: k2 :: k3 ::
          ((List.range p.length).map fun i =>
            p.getD i 0 ^^^ maskByte (clientMaskKey k0 k1 k2 k3) i)).getD 1 0 &&& 0x80 != 0))
        (clientMaskKey k0 k1 k2 k3) 6 p.length = some p := by
      rw [hg1, hb1.1]
      exact parsePayload_masked_inverse
        [0x80 ||| op, 0x80 ||| p.length, k0, k1, k2, k3] p (clientMaskKey k0 k1 k2 k3)
    rw [parseFrameData_eq _ h2 p.length 2 hext (clientMaskKey k0 k1 k2 k3) 6 hmask p hpay]
    rw [hg0, hg1]
    rw [hb0.1, hb0.2.1, hb0.2.2.1, hb0.2.2.2.1, hb0.2.2.2.2, hb1.1]
  rcases Nat.lt_or_ge p.length 65536 with hn2 | hn2
  · -- 16-bit length
    have hne : ¬ p.length < 126 := by omega
    have hF : buildFrameClient p op k0 k1 k2 k3
        = (0x80 ||| op) :: (0x80 ||| 126) :: ((p.length >>> 8) &&& 0xFF) :: (p.length &&& 0xFF)
          :: k0 :: k1 :: k2 :: k3 ::
          ((List.range p.length).map fun i =>
            p.getD i 0 ^^^ maskByte (clientMaskKey k0 k1 k2 k3) i) := by
      simp only [buildFrameClient, if_neg hne, if_pos hn2, List.cons_append,
        List.singleton_append, List.nil_append]
    rw [hF]
    have hg0 : ((0x80 ||| op) :: (0x80 ||| 126) :: ((p.length >>> 8) &&& 0xFF)
        :: (p.length &&& 0xFF) :: k0 :: k1 :: k2 :: k3 ::
        ((List.range p.length).map fun i =>
          p.getD i 0 ^^^ maskByte (clientMaskKey k0 k1 k2 k3) i)).getD 0 0
        = 0x80 ||| op := rfl
    have hg1 : ((0x80 ||| op) :: (0x80 ||| 126) :: ((p.length >>> 8) &&& 0xFF)
        :: (p.length &&& 0xFF) :: k0 :: k1 :: k2 :: k3 ::
        ((List.range p.length).map fun i =>
          p.getD i 0 ^^^ maskByte (clientMaskKey k0 k1 k2 k3) i)).getD 1 0
        = 0x80 ||| 126 := rfl
    have h2 : ¬ ((0x80 ||| op) :: (0x80 ||| 126) :: ((p.length >>> 8) &&& 0xFF)
        :: (p.length &&& 0xFF) :: k0 :: k1 :: k2 :: k3 ::
        ((List.range p.length).map fun i =>
          p.getD i 0 ^^^ maskByte (clientMaskKey k0 k1 k2 k3) i)).length < 2 := by
      simp
    have hext : parseExtLen ((0x80 ||| op) :: (0x80 ||| 126) :: ((p.length >>> 8) &&& 0xFF)
        :: (p.length &&& 0xFF) :: k0 :: k1 :: k2 :: k3 ::
        ((List.range p.length).map fun i =>
          p.getD i 0 ^^^ maskByte (clientMaskKey k0 k1 k2 k3) i))
        (((0x80 ||| op) :: (0x80 ||| 126) :: ((p.length >>> 8) &&& 0xFF)
          :: (p.length &&& 0xFF) :: k0 :: k1 :: k2 :: k3 ::
          ((List.range p.length).map fun i =>
            p.getD i 0 ^^^ maskByte (clientMaskKey k0 k1 k2 k3) i)).getD 1 0 &&& 0x7F)
        = some (p.length, 4) := by
      rw [hg1]
      rw [show ((0x80 ||| 126 : Nat) &&& 0x7F) = 126 from by decide]
      rw [parseExtLen]
      rw [if_pos rfl]
      rw [if_neg (by simp)]
      show some ((((p.length >>> 8) &&& 0xFF) <<< 8) ||| (p.length &&& 0xFF), 4) = _
      rw [len16_decode p.length hn2]
    have hmask : parseMaskKey ((0x80 ||| op) :: (0x80 ||| 126) :: ((p.length >>> 8) &&& 0xFF)
        :: (p.length &&& 0xFF) :: k0 :: k1 :: k2 :: k3 ::
        ((List.range p.length).map fun i =>
          p.getD i 0 ^^^ maskByte (clientMaskKey k0 k1 k2 k3) i))
        ((((0x80 ||| op) :: (0x80 ||| 126) :: ((p.length >>> 8) &&& 0xFF)
          :: (p.length &&& 0xFF) :: k0 :: k1 :: k2 :: k3 ::
          ((List.range p.length).map fun i =>
            p.getD i 0 ^^^ maskByte (clientMaskKey k0 k1 k2 k3) i)).getD 1 0 &&& 0x80 != 0)) 4
        = some (clientMaskKey k0 k1 k2 k3, 8) := by
      rw [hg1]
      rw [show (((0x80 ||| 126 : Nat) &&& 0x80 != 0)) = true from by decide]
      rw [parseMaskKey]
      rw [if_pos rfl]
      rw [if_neg (by simp)]
      show some ((k0 <<< 24) ||| (k1 <<< 16) ||| (k2 <<< 8) ||| k3, 8) = _
      rw [mask_key_assemble k0 k1 k2 k3 hk1 hk2 hk3]
    have hpay : parsePayload ((0x80 ||| op) :: (0x80 ||| 126) :: ((p.length >>> 8) &&& 0xFF)
        :: (p.length &&& 0xFF) :: k0 :: k1 :: k2 :: k3 ::
        ((List.range p.length).map fun i =>
          p.getD i 0 ^^^ maskByte (clientMaskKey k0 k1 k2 k3) i))
        ((((0x80 ||| op) :: (0x80 ||| 126) :: ((p.length >>> 8) &&& 0xFF)
          :: (p.length &&& 0xFF) :: k0 :: k1 :: k2 :: k3 ::
          ((List.range p.length).map fun i =>
            p.getD i 0 ^^^ maskByte (clientMaskKey k0 k1 k2 k3) i)).getD 1 0 &&& 0x80 != 0))
        (clientMaskKey k0 k1 k2 k3) 8 p.length = some p := by
      rw [hg1]
      rw [show (((0x80 ||| 126 : Nat) &&& 0x80 != 0)) = true from by decide]
      exact parsePayload_masked_inverse
        [0x80 ||| op, 0x80 ||| 126, (p.length >>> 8) &&& 0xFF, p.length &&& 0xFF,
         k0, k1, k2, k3] p (clientMaskKey k0 k1 k2 k3)
    rw [parseFrameData_eq _ h2 p.length 4 hext (clientMaskKey k0 k1 k2 k3) 8 hmask p hpay]
    rw [hg0, hg1]
    rw [hb0.1, hb0.2.1, hb0.2.2.1, hb0.2.2.2.1, hb0.2.2.2.2]
    rw [show (((0x80 ||| 126 : Nat) &&& 0x80 != 0)) = true from by decide]
  · -- 64-bit length
    have hne : ¬ p.length < 126 := by omega
    have hne2 : ¬ p.length < 65536 := by omega
    have hF : buildFrameClient p op k0 k1 k2 k3
        = (0x80 ||| op) :: (0x80 ||| 127) ::
          ((List.range 8).map (fun i => (p.length >>> ((7 - i) * 8)) &&& 0xFF) ++
            (k0 :: k1 :: k2 :: k3 ::
              ((List.range p.length).map fun i =>
                p.getD i 0 ^^^ maskByte (clientMaskKey k0 k1 k2 k3) i))) := by
      simp only [buildFrameClient, if_neg hne, if_neg hne2, List.cons_append,
        List.singleton_append, List.nil_append]
    rw [hF]
    have hg0 : ((0x80 ||| op) :: (0x80 ||| 127) ::
        ((List.range 8).map (fun i => (p.length >>> ((7 - i) * 8)) &&& 0xFF) ++
          (k0 :: k1 :: k2 :: k3 ::
            ((List.range p.length).map fun i =>
              p.getD i 0 ^^^ maskByte (clientMaskKey k0 k1 k2 k3) i)))).getD 0 0
        = 0x80 ||| op := rfl
    have hg1 : ((0x80 ||| op) :: (0x80 ||| 127) ::
        ((List.range 8).map (fun i => (p.length >>> ((7 - i) * 8)) &&& 0xFF) ++
          (k0 :: k1 :: k2 :: k3 ::
            ((List.range p.length).map fun i =>
              p.getD i 0 ^^^ maskByte (clientMaskKey k0 k1 k2 k3) i)))).getD 1 0
        = 0x80 ||| 127 := rfl
    have h2 : ¬ ((0x80 ||| op) :: (0x80 ||| 127) ::
        ((List.range 8).map (fun i => (p.length >>> ((7 - i) * 8)) &&& 0xFF) ++
          (k0 :: k1 :: k2 :: k3 ::
            ((List.range p.length).map fun i =>
              p.getD i 0 ^^^ maskByte (clientMaskKey k0 k1 k2 k3) i)))).length < 2 := by
      simp
    have hfold : (List.range 8).foldl
        (fun acc i => (acc <<< 8) ||| ((0x80 ||| op) :: (0x80 ||| 127) ::
          ((List.range 8).map (fun i => (p.length >>> ((7 - i) * 8)) &&& 0xFF) ++
            (k0 :: k1 :: k2 :: k3 ::
              ((List.range p.length).map fun i =>
                p.getD i 0 ^^^ maskByte (clientMaskKey k0 k1 k2 k3) i)))).getD (2 + i) 0) 0
        = ((((((((0 <<< 8 ||| (p.length >>> 56 &&& 0xFF)) <<< 8 ||| (p.length >>> 48 &&& 0xFF))
          <<< 8 ||| (p.length >>> 40 &&& 0xFF)) <<< 8 ||| (p.length >>> 32 &&& 0xFF)) <<< 8
          ||| (p.length >>> 24 &&& 0xFF)) <<< 8 ||| (p.length >>> 16 &&& 0xFF)) <<< 8
          ||| (p.length >>> 8 &&& 0xFF)) <<< 8) ||| (p.length &&& 0xFF) := rfl
    have hext : parseExtLen ((0x80 ||| op) :: (0x80 ||| 127) ::
        ((List.range 8).map (fun i => (p.length >>> ((7 - i) * 8)) &&& 0xFF) ++
          (k0 :: k1 :: k2 :: k3 ::
            ((List.range p.length).map fun i =>
              p.getD i 0 ^^^ maskByte (clientMaskKey k0 k1 k2 k3) i))))
        (((0x80 ||| op) :: (0x80 ||| 127) ::
          ((List.range 8).map (fun i => (p.length >>> ((7 - i) * 8)) &&& 0xFF) ++
            (k0 :: k1 :: k2 :: k3 ::
              ((List.range p.length).map fun i =>
                p.getD i 0 ^^^ maskByte (clientMaskKey k0 k1 k2 k3) i)))).getD 1 0 &&& 0x7F)
        = some (p.length, 10) := by
      rw [hg1]
      rw [show ((0x80 ||| 127 : Nat) &&& 0x7F) = 127 from by decide]
      rw [parseExtLen]
      rw [if_neg (by decide), if_pos rfl]
      rw [if_neg (by simp)]
      rw [hfold, be8_decode p.length hlen]
    have hmask : parseMaskKey ((0x80 ||| op) :: (0x80 ||| 127) ::
        ((List.range 8).map (fun i => (p.length >>> ((7 - i) * 8)) &&& 0xFF) ++
          (k0 :: k1 :: k2 :: k3 ::
            ((List.range p.length).map fun i =>
              p.getD i 0 ^^^ maskByte (clientMaskKey k0 k1 k2 k3) i))))
        ((((0x80 ||| op) :: (0x80 ||| 127) ::
          ((List.range 8).map (fun i => (p.length >>> ((7 - i) * 8)) &&& 0xFF) ++
            (k0 :: k1 :: k2 :: k3 ::
              ((List.range p.length).map fun i =>
                p.getD i 0 ^^^ maskByte (clientMaskKey k0 k1 k2 k3) i)))).getD 1 0
          &&& 0x80 != 0)) 10
        = some (clientMaskKey k0 k1 k2 k3, 14) := by
      rw [hg1]
      rw [show (((0x80 ||| 127 : Nat) &&& 0x80 != 0)) = true from by decide]
      rw [parseMaskKey]
      rw [if_pos rfl]
      rw [if_neg (by simp; omega)]
      show some ((k0 <<< 24) ||| (k1 <<< 16) ||| (k2 <<< 8) ||| k3, 14) = _
      rw [mask_key_assemble k0 k1 k2 k3 hk1 hk2 hk3]
    have hpay : parsePayload ((0x80 ||| op) :: (0x80 ||| 127) ::
        ((List.range 8).map (fun i => (p.length >>> ((7 - i) * 8)) &&& 0xFF) ++
          (k0 :: k1 :: k2 :: k3 ::
            ((List.range p.length).map fun i =>
              p.getD i 0 ^^^ maskByte (clientMaskKey k0 k1 k2 k3) i))))
        ((((0x80 ||| op) :: (0x80 ||| 127) ::
          ((List.range 8).map (fun i => (p.length >>> ((7 - i) * 8)) &&& 0xFF) ++
            (k0 :: k1 :: k2 :: k3 ::
              ((List.range p.length).map fun i =>
                p.getD i 0 ^^^ maskByte (clientMaskKey k0 k1 k2 k3) i)))).getD 1 0
          &&& 0x80 != 0))
        (clientMaskKey k0 k1 k2 k3) 14 p.length = some p := by
      rw [hg1]
      rw [show (((0x80 ||| 127 : Nat) &&& 0x80 != 0)) = true from by decide]
      exact parsePayload_masked_inverse
        [0x80 ||| op, 0x80 ||| 127,
         p.length >>> 56 &&& 0xFF, p.length >>> 48 &&& 0xFF, p.length >>> 40 &&& 0xFF,
         p.length >>> 32 &&& 0xFF, p.length >>> 24 &&& 0xFF, p.length >>> 16 &&& 0xFF,
         p.length >>> 8 &&& 0xFF, p.length &&& 0xFF,
         k0, k1, k2, k3] p (clientMaskKey k0 k1 k2 k3)
    rw [parseFrameData_eq _ h2 p.length 10 hext (clientMaskKey k0 k1 k2 k3) 14 hmask p hpay]
    rw [hg0, hg1]
    rw [hb0.1, hb0.2.1, hb0.2.2.1, hb0.2.2.2.1, hb0.2.2.2.2]
    rw [show (((0x80 ||| 127 : Nat) &&& 0x80 != 0)) = true from by decide]

/-- Parsing a server-built (unmasked) frame recovers FIN, the opcode, the
payload length and the payload, across all three length encodings. -/
theorem parse_buildFrameServer (p : List Nat) (op : Nat) (hop : op < 16)
    (hlen : p.length < 2 ^ 64) :
    parseFrameData (buildFrameServer p op)
      = some { fin := true, rsv1 := false, rsv2 := false, rsv3 := false, opcode := op,
               masked := false, payload_length := p.length,
               masking_key := 0, payload := p } := by
  have hb0 := b0_fields op hop
  rcases Nat.lt_or_ge p.length 126 with hn1 | hn1
  · -- 7-bit length
    have hF : buildFrameServer p op = (0x80 ||| op) :: (0x00 ||| p.length) :: p := by
      simp only [buildFrameServer, if_pos hn1, List.cons_append, List.singleton_append,
        List.nil_append]
    rw [hF]
    have hb1 := b1_server_small p.length hn1
    have hg0 : ((0x80 ||| op) :: (0x00 ||| p.length) :: p).getD 0 0 = 0x80 ||| op := rfl
    have hg1 : ((0x80 ||| op) :: (0x00 ||| p.length) :: p).getD 1 0 = 0x00 ||| p.length := rfl
    have h2 : ¬ ((0x80 ||| op) :: (0x00 ||| p.length) :: p).length < 2 := by simp
    have hext : parseExtLen ((0x80 ||| op) :: (0x00 ||| p.length) :: p)
        (((0x80 ||| op) :: (0x00 ||| p.length) :: p).getD 1 0 &&& 0x7F)
        = some (p.length, 2) := by
      rw [hg1, hb1.2, parseExtLen]
      rw [if_neg (by omega), if_neg (by omega)]
    have hmask : parseMaskKey ((0x80 ||| op) :: (0x00 ||| p.length) :: p)
        ((((0x80 ||| op) :: (0x00 ||| p.length) :: p).getD 1 0 &&& 0x80 != 0)) 2
        = some (0, 2) := by
      rw [hg1, hb1.1, parseMaskKey]
      rw [if_neg (by simp)]
    have hpay : parsePayload ((0x80 ||| op) :: (0x00 ||| p.length) :: p)
        ((((0x80 ||| op) :: (0x00 ||| p.length) :: p).getD 1 0 &&& 0x80 != 0)) 0 2 p.length
        = some p := by
      rw [hg1, hb1.1]
      exact parsePayload_unmasked_id [0x80 ||| op, 0x00 ||| p.length] p 0
    rw [parseFrameData_eq _ h2 p.length 2 hext 0 2 hmask p hpay]
    rw [hg0, hg1]
    rw [hb0.1, hb0.2.1, hb0.2.2.1, hb0.2.2.2.1, hb0.2.2.2.2, hb1.1]
  rcases Nat.lt_or_ge p.length 65536 with hn2 | hn2
  · -- 16-bit length
    have hne : ¬ p.length < 126 := by omega
    have hF : buildFrameServer p op
        = (0x80 ||| op) :: (0x00 ||| 126) :: ((p.length >>> 8) &&& 0xFF)
          :: (p.length &&& 0xFF) :: p := by
      simp only [buildFrameServer, if_neg hne, if_pos hn2, List.cons_append,
        List.singleton_append, List.nil_append]
    rw [hF]
    have hg0 : ((0x80 ||| op) :: (0x00 ||| 126) :: ((p.length >>> 8) &&& 0xFF)
        :: (p.length &&& 0xFF) :: p).getD 0 0 = 0x80 ||| op := rfl
    have hg1 : ((0x80 ||| op) :: (0x00 ||| 126) :: ((p.length >>> 8) &&& 0xFF)
        :: (p.length &&& 0xFF) :: p).getD 1 0 = 0x00 ||| 126 := rfl
    have h2 : ¬ ((0x80 ||| op) :: (0x00 ||| 126) :: ((p.length >>> 8) &&& 0xFF)
        :: (p.length &&& 0xFF) :: p).length < 2 := by simp
    have hext : parseExtLen ((0x80 ||| op) :: (0x00 ||| 126) :: ((p.length >>> 8) &&& 0xFF)
        :: (p.length &&& 0xFF) :: p)
        (((0x80 ||| op) :: (0x00 ||| 126) :: ((p.length >>> 8) &&& 0xFF)
          :: (p.length &&& 0xFF) :: p).getD 1 0 &&& 0x7F)
        = some (p.length, 4) := by
      rw [hg1]
      rw [show ((0x00 ||| 126 : Nat) &&& 0x7F) = 126 from by decide]
      rw [parseExtLen]
      rw [if_pos rfl]
      rw [if_neg (by simp)]
      show some ((((p.length >>> 8) &&& 0xFF) <<< 8) ||| (p.length &&& 0xFF), 4) = _
      rw [len16_decode p.length hn2]
    have hmask : parseMaskKey ((0x80 ||| op) :: (0x00 ||| 126) :: ((p.length >>> 8) &&& 0xFF)
        :: (p.length &&& 0xFF) :: p)
        ((((0x80 ||| op) :: (0x00 ||| 126) :: ((p.length >>> 8) &&& 0xFF)
          :: (p.length &&& 0xFF) :: p).getD 1 0 &&& 0x80 != 0)) 4
        = some (0, 4) := by
      rw [hg1]
      rw [show (((0x00 ||| 126 : Nat) &&& 0x80 != 0)) = false from by decide]
      rw [parseMaskKey]
      rw [if_neg (by simp)]
    have hpay : parsePayload ((0x80 ||| op) :: (0x00 ||| 126) :: ((p.length >>> 8) &&& 0xFF)
        :: (p.length &&& 0xFF) :: p)
        ((((0x80 ||| op) :: (0x00 ||| 126) :: ((p.length >>> 8) &&& 0xFF)
          :: (p.length &&& 0xFF) :: p).getD 1 0 &&& 0x80 != 0)) 0 4 p.length
        = some p := by
      rw [hg1]
      rw [show (((0x00 ||| 126 : Nat) &&& 0x80 != 0)) = false from by decide]
      exact parsePayload_unmasked_id
        [0x80 ||| op, 0x00 ||| 126, (p.length >>> 8) &&& 0xFF, p.length &&& 0xFF] p 0
    rw [parseFrameData_eq _ h2 p.length 4 hext 0 4 hmask p hpay]
    rw [hg0, hg1]
    rw [hb0.1, hb0.2.1, hb0.2.2.1, hb0.2.2.2.1, hb0.2.2.2.2]
    rw [show (((0x00 ||| 126 : Nat) &&& 0x80 != 0)) = false from by decide]
  · -- 64-bit length
    have hne : ¬ p.length < 126 := by omega
    have hne2 : ¬ p.length < 65536 := by omega
    have hF : buildFrameServer p op
        = (0x80 ||| op) :: (0x00 ||| 127) ::
          ((List.range 8).map (fun i => (p.length >>> ((7 - i) * 8)) &&& 0xFF) ++ p) := by
      simp only [buildFrameServer, if_neg hne, if_neg hne2, List.cons_append,
        List.singleton_append, List.nil_append]
    rw [hF]
    have hg0 : ((0x80 ||| op) :: (0x00 ||| 127) ::
        ((List.range 8).map (fun i => (p.length >>> ((7 - i) * 8)) &&& 0xFF) ++ p)).getD 0 0
        = 0x80 ||| op := rfl
    have hg1 : ((0x80 ||| op) :: (0x00 ||| 127) ::
        ((List.range 8).map (fun i => (p.length >>> ((7 - i) * 8)) &&& 0xFF) ++ p)).getD 1 0
        = 0x00 ||| 127 := rfl
    have h2 : ¬ ((0x80 ||| op) :: (0x00 ||| 127) ::
        ((List.range 8).map (fun i => (p.length >>> ((7 - i) * 8)) &&& 0xFF) ++ p)).length < 2 := by
      simp
    have hfold : (List.range 8).foldl
        (fun acc i => (acc <<< 8) ||| ((0x80 ||| op) :: (0x00 ||| 127) ::
          ((List.range 8).map (fun i => (p.length >>> ((7 - i) * 8)) &&& 0xFF) ++ p)).getD
            (2 + i) 0) 0
        = ((((((((0 <<< 8 ||| (p.length >>> 56 &&& 0xFF)) <<< 8 ||| (p.length >>> 48 &&& 0xFF))
          <<< 8 ||| (p.length >>> 40 &&& 0xFF)) <<< 8 ||| (p.length >>> 32 &&& 0xFF)) <<< 8
          ||| (p.length >>> 24 &&& 0xFF)) <<< 8 ||| (p.length >>> 16 &&& 0xFF)) <<< 8
          ||| (p.length >>> 8 &&& 0xFF)) <<< 8) ||| (p.length &&& 0xFF) := rfl
    have hext : parseExtLen ((0x80 ||| op) :: (0x00 ||| 127) ::
        ((List.range 8).map (fun i => (p.length >>> ((7 - i) * 8)) &&& 0xFF) ++ p))
        (((0x80 ||| op) :: (0x00 ||| 127) ::
          ((List.range 8).map (fun i => (p.length >>> ((7 - i) * 8)) &&& 0xFF) ++ p)).getD 1 0
          &&& 0x7F)
        = some (p.length, 10) := by
      rw [hg1]
      rw [show ((0x00 ||| 127 : Nat) &&& 0x7F) = 127 from by decide]
      rw [parseExtLen]
      rw [if_neg (by decide), if_pos rfl]
      rw [if_neg (by simp)]
      rw [hfold, be8_decode p.length hlen]
    have hmask : parseMaskKey ((0x80 ||| op) :: (0x00 ||| 127) ::
        ((List.range 8).map (fun i => (p.length >>> ((7 - i) * 8)) &&& 0xFF) ++ p))
        ((((0x80 ||| op) :: (0x00 ||| 127) ::
          ((List.range 8).map (fun i => (p.length >>> ((7 - i) * 8)) &&& 0xFF) ++ p)).getD 1 0
          &&& 0x80 != 0)) 10
        = some (0, 10) := by
      rw [hg1]
      rw [show (((0x00 ||| 127 : Nat) &&& 0x80 != 0)) = false from by decide]
      rw [parseMaskKey]
      rw [if_neg (by simp)]
    have hpay : parsePayload ((0x80 ||| op) :: (0x00 ||| 127) ::
        ((List.range 8).map (fun i => (p.length >>> ((7 - i) * 8)) &&& 0xFF) ++ p))
        ((((0x80 ||| op) :: (0x00 ||| 127) ::
          ((List.range 8).map (fun i => (p.length >>> ((7 - i) * 8)) &&& 0xFF) ++ p)).getD 1 0
          &&& 0x80 != 0)) 0 10 p.length
        = some p := by
      rw [hg1]
      rw [show (((0x00 ||| 127 : Nat) &&& 0x80 != 0)) = false from by decide]
      exact parsePayload_unmasked_id
        [0x80 ||| op, 0x00 ||| 127,
         p.length >>> 56 &&& 0xFF, p.length >>> 48 &&& 0xFF, p.length >>> 40 &&& 0xFF,
         p.length >>> 32 &&& 0xFF, p.length >>> 24 &&& 0xFF, p.length >>> 16 &&& 0xFF,
         p.length >>> 8 &&& 0xFF, p.length &&& 0xFF] p 0
    rw [parseFrameData_eq _ h2 p.length 10 hext 0 10 hmask p hpay]
    rw [hg0, hg1]
    rw [hb0.1, hb0.2.1, hb0.2.2.1, hb0.2.2.2.1, hb0.2.2.2.2]
    rw [show (((0x00 ||| 127 : Nat) &&& 0x80 != 0)) = false from by decide]

/-- C4: round-trip of the WebSocket framing: a frame built by the client
(MASK=1, any four mask-key bytes) and parsed by the server-side parser, and
a frame built by the server (MASK=0) and parsed by the client-side parser,
decode to FIN=true, the original data opcode, and the original payload. The
two parsers share one parsing definition because their source text is
identical. -/
theorem websocket_frame_roundtrip (p : List Nat) (op k0 k1 k2 k3 : Nat)
    (hop : op = 0x1 ∨ op = 0x2) (hp : ∀ b ∈ p, b < 256)
    (hk0 : k0 < 256) (hk1 : k1 < 256) (hk2 : k2 < 256) (hk3 : k3 < 256)
    (hlen : p.length < 2 ^ 64) :
    (∃ fr : WebSocketFrame,
        parseFrameData (buildFrameClient p op k0 k1 k2 k3) = some fr
        ∧ fr.fin = true ∧ fr.opcode = op ∧ fr.payload = p)
    ∧ (∃ fr : WebSocketFrame,
        parseFrameData (buildFrameServer p op) = some fr
        ∧ fr.fin = true ∧ fr.opcode = op ∧ fr.payload = p) := by
  have hop16 : op < 16 := by rcases hop with h | h <;> omega
  constructor
  · exact ⟨_, parse_buildFrameClient p op k0 k1 k2 k3 hop16 hk1 hk2 hk3 hlen, rfl, rfl, rfl⟩
  · exact ⟨_, parse_buildFrameServer p op hop16 hlen, rfl, rfl, rfl⟩

/-- Witness for websocket_frame_roundtrip at the payload "hi", opcode TEXT
and mask key bytes 1,2,3,4. -/
theorem websocket_frame_roundtrip_witness :
    (∃ fr : WebSocketFrame,
        parseFrameData (buildFrameClient [104, 105] 0x1 1 2 3 4) = some fr
        ∧ fr.fin = true ∧ fr.opcode = 0x1 ∧ fr.payload = [104, 105])
    ∧ (∃ fr : WebSocketFrame,
        parseFrameData (buildFrameServer [104, 105] 0x1) = some fr
        ∧ fr.fin = true ∧ fr.opcode = 0x1 ∧ fr.payload = [104, 105]) :=
  websocket_frame_roundtrip [104, 105] 0x1 1 2 3 4 (Or.inl rfl) (by decide)
    (by decide) (by decide) (by decide) (by decide) (by decide)
